import Mathlib

/-!
Shallow embedding of the two training scripts of the repository
(`3_randomforest.py` and `randomforest.py`).

Conventions of the embedding:
* pixel values are integers (`Int`); a raster band, as returned by
  `rasterio` / `gdal`, is a row-major matrix `List (List Int)` with
  `height` rows of `width` values;
* fallible Python code (file opens, band reads, XML parsing, numpy
  assignments that can raise `ValueError`) is modelled with
  `Except String`, the string being the Python exception it stands for;
* the interpolation performed by `skimage.transform.resize` and the affine
  warp of `cv2.warpAffine` are library numerics that the scripts only use
  through their shape contracts; they are taken as parameters constrained
  by `ResizeSpec` / `WarpSpec` (output shape as documented by those
  libraries);
* an XML document already read by `xml.etree.ElementTree` is a tree
  `XElem` of elements (tag, optional text, children); a missing or
  malformed file is `none`;
* the `map.txt` file is given as the list of its lines, as produced by
  Python `readlines()` (each line may keep its trailing newline); a
  missing file is `none`.
-/

abbrev Band := List (List Int)

def rasterFileNotFound : String := "RasterioIOError: No such file or directory"

def bandIndexMsg : String := "IndexError: band index out of range"

def mapFileNotFound : String := "FileNotFoundError: No such file or directory"

def tokenIndexMsg : String := "IndexError: list index out of range"

def parseErrorMsg : String := "ParseError: no element found"

def unboundLocalMsg : String := "UnboundLocalError: local variable classification referenced before assignment"

def noneTypeMsg : String := "AttributeError: NoneType object has no attribute ReadAsArray"

def broadcastErrMsg : String := "ValueError: could not broadcast input array into shape"

def reshapeErrMsg : String := "ValueError: cannot reshape array"

/-- Number of rows of a band matrix (first component of its numpy shape). -/
def nrows (m : Band) : Nat := m.length

/-- Number of columns of a band matrix (second component of its numpy shape,
read off the first row, as all rows of a numpy array have equal length). -/
def ncols (m : Band) : Nat := (m.headD []).length

/-- The matrix `m` has exactly `r` rows, each of length `c`. -/
def BandShape (m : Band) (r c : Nat) : Prop :=
  m.length = r ∧ ∀ row ∈ m, row.length = c

/-- Expand one row to `cols` entries: a length-1 row is broadcast by
replication, any other row is kept as is. -/
def expandRow (row : List Int) (cols : Nat) : List Int :=
  if row.length = 1 then List.replicate cols (row.headD 0) else row

/-- Expand a matrix to `rows × cols`: a single row is broadcast by
replication, then every row is expanded columnwise. -/
def expandRows (m : Band) (rows cols : Nat) : Band :=
  (if m.length = 1 then List.replicate rows (m.headD []) else m).map
    (fun row => expandRow row cols)

/-- The numpy assignment `buf[:, :] = m` for a buffer of shape
`(rows, cols)`: the right-hand side is broadcast to the buffer shape (each
of its dimensions must be `1` or equal to the corresponding buffer
dimension), otherwise a `ValueError` is raised.  The slice covers the whole
buffer, so the buffer content after the assignment is the broadcast value. -/
def broadcastTo (m : Band) (rows cols : Nat) : Except String Band :=
  if (nrows m = 1 ∨ nrows m = rows) ∧ (ncols m = 1 ∨ ncols m = cols) then
    Except.ok (expandRows m rows cols)
  else
    Except.error broadcastErrMsg

/-- The numpy boolean masking `band[alpha != 0]`: the band values at the
positions where `alpha` is nonzero, scanned in row-major (C) order. -/
def maskSelect (band alpha : Band) : List Int :=
  ((band.flatten.zip alpha.flatten).filter (fun p => !(p.2 == 0))).map Prod.fst

/-- Row-major flattening of a `(rows, cols, 3)` array stored as three
planes: element `(i, j, k)` comes before `(i, j, k+1)`, which comes before
`(i, j+1, 0)`. -/
def interleave3 : List Int → List Int → List Int → List Int
  | a :: as, b :: bs, c :: cs => a :: b :: c :: interleave3 as bs cs
  | _, _, _ => []

/-- Row-major flattening of a `(rows, cols, 4)` array stored as four
planes. -/
def interleave4 : List Int → List Int → List Int → List Int → List Int
  | a :: as, b :: bs, c :: cs, d :: ds => a :: b :: c :: d :: interleave4 as bs cs ds
  | _, _, _, _ => []

/-- Build the three planes of `rgb = np.zeros([rows, cols, 3])` followed by
the three slice assignments `rgb[:, :, k] = a, b, c`; each assignment can
raise the broadcast `ValueError`, in that order. -/
def assemble3 (rows cols : Nat) (a b c : Band) : Except String (Band × Band × Band) :=
  match broadcastTo a rows cols with
  | Except.error e => Except.error e
  | Except.ok p0 =>
    match broadcastTo b rows cols with
    | Except.error e => Except.error e
    | Except.ok p1 =>
      match broadcastTo c rows cols with
      | Except.error e => Except.error e
      | Except.ok p2 => Except.ok (p0, p1, p2)

/-- A raster image file as the geospatial libraries expose it: pixel width,
pixel height, and the list of its bands, each band a row-major
`height × width` matrix. -/
structure Raster where
  width : Nat
  height : Nat
  bands : List Band

/-- Well-formedness of a raster: every band is a `height × width` matrix. -/
def Raster.WF (r : Raster) : Prop :=
  ∀ b ∈ r.bands, b.length = r.height ∧ ∀ row ∈ b, row.length = r.width

/-- rasterio `dataset.read(k)`: band `k` (1-indexed) of the raster; an index
past the band count raises `IndexError`. -/
def rasterio_read (ds : Raster) (k : Nat) : Except String Band :=
  match ds.bands[k - 1]? with
  | some b => Except.ok b
  | none => Except.error bandIndexMsg

/-- Source `3_randomforest.py`, `preprocess_image` (lines 92-115): open the
raster (a missing file raises), read the width and the height, and read
bands 1-4 as red, green, blue and alpha. -/
def preprocess_image (img : Option Raster) :
    Except String (Nat × Nat × Band × Band × Band × Band) :=
  match img with
  | none => Except.error rasterFileNotFound
  | some ds =>
    match rasterio_read ds 1 with
    | Except.error e => Except.error e
    | Except.ok red =>
      match rasterio_read ds 2 with
      | Except.error e => Except.error e
      | Except.ok green =>
        match rasterio_read ds 3 with
        | Except.error e => Except.error e
        | Except.ok blue =>
          match rasterio_read ds 4 with
          | Except.error e => Except.error e
          | Except.ok alpha =>
            Except.ok (ds.width, ds.height, red, green, blue, alpha)

/-- Shape contract of `skimage.transform.resize(v, (a, b))`: the output is
an `a × b` matrix.  The interpolation itself is library code, kept
abstract. -/
def ResizeSpec (resize : List Int → Nat → Nat → Band) : Prop :=
  ∀ v a b, BandShape (resize v a b) a b

/-- A concrete function satisfying `ResizeSpec`, used to instantiate the
parametric theorems on concrete inputs. -/
def resizeFill (v : List Int) (a b : Nat) : Band :=
  List.replicate a (List.replicate b (v.headD 0))

/-- Shape contract of `cv2.warpAffine(src, M, (w, h))` on a three-plane
image: `dsize = (w, h)` gives an output of `h` rows and `w` columns in each
plane.  The affine interpolation itself is library code, kept abstract. -/
def WarpSpec (warp : Band × Band × Band → Nat → Nat → Band × Band × Band) : Prop :=
  ∀ p w h, BandShape (warp p w h).1 h w ∧ BandShape (warp p w h).2.1 h w ∧
    BandShape (warp p w h).2.2 h w

/-- A concrete function satisfying `WarpSpec`, used to instantiate the
parametric theorems on concrete inputs. -/
def warpFill (p : Band × Band × Band) (w h : Nat) : Band × Band × Band :=
  (List.replicate h (List.replicate w (p.1.headD [] |>.headD 0)),
   List.replicate h (List.replicate w 0),
   List.replicate h (List.replicate w 0))

/-- Loop body of `preprocess_training_data` for one image, after
`preprocess_image` (lines 57-82): build the raw `rgb` buffer from the bands
(lines 57-60, each slice assignment can raise), mask each colour band by
the nonzero positions of the alpha band (`red_masked` and friends,
lines 66-68), resize each masked vector to `(nX, nY)` (lines 70-72),
rebuild the `rgb` buffer from the resized bands (lines 74-77) and flatten
it (line 82).  The Python locals `red_masked`, `green_masked` and
`blue_masked` are inlined into the resize calls. -/
def processBands (resize : List Int → Nat → Nat → Band) (nX nY : Nat)
    (red green blue alpha : Band) : Except String (List Int) :=
  match assemble3 nX nY red green blue with
  | Except.error e => Except.error e
  | Except.ok _rgb =>
    match assemble3 nX nY (resize (maskSelect red alpha) nX nY)
        (resize (maskSelect green alpha) nX nY)
        (resize (maskSelect blue alpha) nX nY) with
    | Except.error e => Except.error e
    | Except.ok (p0, p1, p2) => Except.ok (interleave3 p0.flatten p1.flatten p2.flatten)

/-- Per-image body of `preprocess_training_data` (lines 54-83). -/
def processImage (resize : List Int → Nat → Nat → Band) (img : Option Raster) :
    Except String (List Int) :=
  match preprocess_image img with
  | Except.error e => Except.error e
  | Except.ok (nX, nY, red, green, blue, alpha) =>
    processBands resize nX nY red green blue alpha

/-- Loop body of `augment_flip` for one image, after `preprocess_image`
(lines 148-171): flip every band vertically with `np.flipud` (reverse the
row order), mask the flipped colour bands by the flipped alpha, resize each
masked vector to `(nX, nY)`, build the `rgb` buffer from the resized bands
and flatten it.  The Python locals `flipped_red` ... and `red_masked` ...
are inlined. -/
def processBandsFlip (resize : List Int → Nat → Nat → Band) (nX nY : Nat)
    (red green blue alpha : Band) : Except String (List Int) :=
  match assemble3 nX nY (resize (maskSelect red.reverse alpha.reverse) nX nY)
      (resize (maskSelect green.reverse alpha.reverse) nX nY)
      (resize (maskSelect blue.reverse alpha.reverse) nX nY) with
  | Except.error e => Except.error e
  | Except.ok (p0, p1, p2) => Except.ok (interleave3 p0.flatten p1.flatten p2.flatten)

/-- Per-image body of `augment_flip` (lines 145-172). -/
def processImageFlip (resize : List Int → Nat → Nat → Band) (img : Option Raster) :
    Except String (List Int) :=
  match preprocess_image img with
  | Except.error e => Except.error e
  | Except.ok (nX, nY, red, green, blue, alpha) =>
    processBandsFlip resize nX nY red green blue alpha

/-- Loop body of `augment_flip_rotate_90` for one image, after
`preprocess_image` (lines 195-217): mask the colour bands by the alpha
band, resize, build the `rgb_flip` buffer from the resized bands, warp it
with `cv2.warpAffine` and `dsize = (nY, nX)` (line 212) and flatten the
warped result (line 217). -/
def processBandsRotate (resize : List Int → Nat → Nat → Band)
    (warp : Band × Band × Band → Nat → Nat → Band × Band × Band) (nX nY : Nat)
    (red green blue alpha : Band) : Except String (List Int) :=
  match assemble3 nX nY (resize (maskSelect red alpha) nX nY)
      (resize (maskSelect green alpha) nX nY)
      (resize (maskSelect blue alpha) nX nY) with
  | Except.error e => Except.error e
  | Except.ok rgb_flip =>
    let rotated_rgb := warp rgb_flip nY nX
    Except.ok (interleave3 rotated_rgb.1.flatten rotated_rgb.2.1.flatten
      rotated_rgb.2.2.flatten)

/-- Per-image body of `augment_flip_rotate_90` (lines 192-218). -/
def processImageRotate (resize : List Int → Nat → Nat → Band)
    (warp : Band × Band × Band → Nat → Nat → Band × Band × Band)
    (img : Option Raster) : Except String (List Int) :=
  match preprocess_image img with
  | Except.error e => Except.error e
  | Except.ok (nX, nY, red, green, blue, alpha) =>
    processBandsRotate resize warp nX nY red green blue alpha

/-- A Python `for` loop that appends `f x` to an accumulator list for every
`x`: the first exception aborts the whole computation, whose local partial
list is discarded when the enclosing function dies. -/
def mapE (f : α → Except String β) : List α → Except String (List β)
  | [] => Except.ok []
  | x :: xs =>
    match f x with
    | Except.error e => Except.error e
    | Except.ok y =>
      match mapE f xs with
      | Except.error e => Except.error e
      | Except.ok ys => Except.ok (y :: ys)

/-- A parsed XML element: tag, optional text, children in document order. -/
inductive XElem : Type where
  | node : List Char → Option (List Char) → List XElem → XElem

/-- Tag of an element. -/
def XElem.tag : XElem → List Char
  | .node t _ _ => t

/-- Text of an element, `none` when the element has no text. -/
def XElem.text : XElem → Option (List Char)
  | .node _ tx _ => tx

def nameTag : List Char := ['n', 'a', 'm', 'e']

mutual

/-- ElementTree `root.iter(tag)` restricted to `tag = name`: all elements
of the subtree (the root of the subtree included) whose tag is `name`, in
document order (depth-first, parents before children). -/
def iterName : XElem → List XElem
  | XElem.node t tx cs =>
    (if t = nameTag then [XElem.node t tx cs] else []) ++ iterNameList cs

/-- Document-order concatenation of `iterName` over a forest. -/
def iterNameList : List XElem → List XElem
  | [] => []
  | e :: es => iterName e ++ iterNameList es

end

/-- Source `3_randomforest.py`, `extract_classification` (lines 117-130):
parse the annotation file (a missing or malformed file raises), loop over
`root.iter(name)` rebinding `classification` to the text of each element,
and return the final value of `classification`; when the loop body never
runs the variable is unbound and the return raises. -/
def extract_classification (doc : Option XElem) : Except String (Option (List Char)) :=
  match doc with
  | none => Except.error parseErrorMsg
  | some root =>
    match (iterName root).getLast? with
    | some e => Except.ok e.text
    | none => Except.error unboundLocalMsg

/-- Source `3_randomforest.py`, `preprocess_training_data` (lines 41-89):
one loop appending the flattened feature vector of every image, then one
loop appending the classification of every annotation file. -/
def preprocess_training_data (resize : List Int → Nat → Nat → Band)
    (image_path : List (Option Raster)) (label_path : List (Option XElem)) :
    Except String (List (List Int) × List (Option (List Char))) :=
  match mapE (processImage resize) image_path with
  | Except.error e => Except.error e
  | Except.ok images =>
    match mapE extract_classification label_path with
    | Except.error e => Except.error e
    | Except.ok labels => Except.ok (images, labels)

/-- Source `3_randomforest.py`, `augment_flip` (lines 133-178): same two
loops with the vertically flipped per-image body. -/
def augment_flip (resize : List Int → Nat → Nat → Band)
    (image_path : List (Option Raster)) (label_path : List (Option XElem)) :
    Except String (List (List Int) × List (Option (List Char))) :=
  match mapE (processImageFlip resize) image_path with
  | Except.error e => Except.error e
  | Except.ok images =>
    match mapE extract_classification label_path with
    | Except.error e => Except.error e
    | Except.ok labels => Except.ok (images, labels)

/-- Source `3_randomforest.py`, `augment_flip_rotate_90` (lines 180-226):
same two loops with the rotated per-image body. -/
def augment_flip_rotate_90 (resize : List Int → Nat → Nat → Band)
    (warp : Band × Band × Band → Nat → Nat → Band × Band × Band)
    (image_path : List (Option Raster)) (label_path : List (Option XElem)) :
    Except String (List (List Int) × List (Option (List Char))) :=
  match mapE (processImageRotate resize warp) image_path with
  | Except.error e => Except.error e
  | Except.ok images =>
    match mapE extract_classification label_path with
    | Except.error e => Except.error e
    | Except.ok labels => Except.ok (images, labels)

/-- Source `3_randomforest.py`, top level (lines 228-249): run the three
preprocessing functions on the same path lists and concatenate, in order,
the original data and the two augmented copies. -/
def combinedData (resize : List Int → Nat → Nat → Band)
    (warp : Band × Band × Band → Nat → Nat → Band × Band × Band)
    (image_path : List (Option Raster)) (label_path : List (Option XElem)) :
    Except String (List (List Int) × List (Option (List Char))) :=
  match preprocess_training_data resize image_path label_path with
  | Except.error e => Except.error e
  | Except.ok (images, labels) =>
    match augment_flip resize image_path label_path with
    | Except.error e => Except.error e
    | Except.ok (ai, al) =>
      match augment_flip_rotate_90 resize warp image_path label_path with
      | Except.error e => Except.error e
      | Except.ok (ai2, al2) =>
        Except.ok (images ++ ai ++ ai2, labels ++ al ++ al2)

/-- The numpy reshape `v.reshape(50, 50, 3)` used by the visualization loop
(line 256): it succeeds exactly when the vector has `50 * 50 * 3` entries
(the reshaped view holds the same elements). -/
def reshape_50_50_3 (v : List Int) : Except String (List Int) :=
  if v.length = 50 * 50 * 3 then Except.ok v else Except.error reshapeErrMsg

/-- Python whitespace as used by `str.split()` with no separator. -/
def isPySpace (c : Char) : Bool :=
  c == ' ' || c == '\t' || c == '\n' || c == '\r' || c == '\x0b' || c == '\x0c'

/-- Accumulator worker for `splitWs`. -/
def splitWsAux : List Char → List Char → List (List Char)
  | [], acc => if acc.isEmpty then [] else [acc.reverse]
  | c :: rest, acc =>
    if isPySpace c then
      if acc.isEmpty then splitWsAux rest [] else acc.reverse :: splitWsAux rest []
    else splitWsAux rest (c :: acc)

/-- Python `str.split()` with no separator: split on runs of whitespace,
with no empty tokens. -/
def splitWs (s : List Char) : List (List Char) := splitWsAux s []

/-- Python `str.strip(c)`: remove every leading and trailing occurrence of
the character `c` (dropping first from the right, then from the left, which
yields the same result). -/
def pyStrip (c : Char) (s : List Char) : List Char :=
  ((s.reverse.dropWhile (· = c)).reverse).dropWhile (· = c)

/-- The `element.replace` step (line 34): replace every backslash with a
forward slash. -/
def replaceBackslash (s : List Char) : List Char :=
  s.map (fun ch => if ch = '\\' then '/' else ch)

/-- One iteration of the `get_training_data` loop (lines 32-37): strip the
newline characters, replace backslashes, split on whitespace and read the
first two tokens; a line with fewer than two tokens raises `IndexError`. -/
def mapLine (path_to_data : List Char) (line : List Char) :
    Except String (List Char × List Char) :=
  let element := pyStrip '\n' line
  let element2 := replaceBackslash element
  match splitWs element2 with
  | t0 :: t1 :: _ => Except.ok (path_to_data ++ '/' :: t0, path_to_data ++ '/' :: t1)
  | _ => Except.error tokenIndexMsg

/-- Source `3_randomforest.py`, `get_training_data` (lines 16-39): open the
map file (a missing file raises) and accumulate, per line, the image path
and the label path. -/
def get_training_data (path_to_data : List Char)
    (mapfile : Option (List (List Char))) :
    Except String (List (List Char) × List (List Char)) :=
  match mapfile with
  | none => Except.error mapFileNotFound
  | some file_lines =>
    match mapE (mapLine path_to_data) file_lines with
    | Except.error e => Except.error e
    | Except.ok pairs => Except.ok (pairs.map Prod.fst, pairs.map Prod.snd)

namespace RF

/-- Source `randomforest.py`, lines 34-37: `i.GetRasterBand(k).ReadAsArray()`.
gdal returns `None` for a band index past the band count, so the chained
`ReadAsArray()` raises `AttributeError`. -/
def GetRasterBand (r : Raster) (k : Nat) : Except String Band :=
  match r.bands[k - 1]? with
  | some b => Except.ok b
  | none => Except.error noneTypeMsg

/-- Band-assignment phase of the `randomforest.py` loop body
(lines 33-44): assign red, green, blue, nir in that order into the fixed
`datas = np.zeros([50, 50, 4])` buffer (each slice assignment broadcasts
and can raise) and flatten the buffer. -/
def broadcastPhase (red green blue nir : Band) : Except String (List Int) :=
  match broadcastTo red 50 50 with
  | Except.error e => Except.error e
  | Except.ok p0 =>
    match broadcastTo green 50 50 with
    | Except.error e => Except.error e
    | Except.ok p1 =>
      match broadcastTo blue 50 50 with
      | Except.error e => Except.error e
      | Except.ok p2 =>
        match broadcastTo nir 50 50 with
        | Except.error e => Except.error e
        | Except.ok p3 =>
          Except.ok (interleave4 p0.flatten p1.flatten p2.flatten p3.flatten)

/-- Source `randomforest.py`, per-image loop body (lines 27-46): read bands
4, 3, 2, 1 in that order (nir, blue, green, red), then assign them into the
fixed buffer and flatten. -/
def processImage (r : Raster) : Except String (List Int) :=
  match GetRasterBand r 4 with
  | Except.error e => Except.error e
  | Except.ok nir =>
    match GetRasterBand r 3 with
    | Except.error e => Except.error e
    | Except.ok blue =>
      match GetRasterBand r 2 with
      | Except.error e => Except.error e
      | Except.ok green =>
        match GetRasterBand r 1 with
        | Except.error e => Except.error e
        | Except.ok red => broadcastPhase red green blue nir

/-- Source `randomforest.py`, one iteration of the label loop
(lines 48-52): parse the annotation file and collect the text of every
element yielded by `root.iter(name)`; each one is appended to the shared
`labels` list. -/
def labelTexts (doc : Option XElem) : Except String (List (Option (List Char))) :=
  match doc with
  | none => Except.error parseErrorMsg
  | some root => Except.ok ((iterName root).map XElem.text)

/-- Source `randomforest.py`, top level (lines 27-55): the image loop, then
the label loop whose appended texts concatenate across files. -/
def script (image_path : List Raster) (label_path : List (Option XElem)) :
    Except String (List (List Int) × List (Option (List Char))) :=
  match mapE processImage image_path with
  | Except.error e => Except.error e
  | Except.ok images =>
    match mapE labelTexts label_path with
    | Except.error e => Except.error e
    | Except.ok ls => Except.ok (images, ls.flatten)

/-- The numpy reshape `X_test[i].reshape(50, 50, 4)` of the visualization
loop (line 109): succeeds exactly when the vector has `50 * 50 * 4`
entries. -/
def reshape_50_50_4 (v : List Int) : Except String (List Int) :=
  if v.length = 50 * 50 * 4 then Except.ok v else Except.error reshapeErrMsg

end RF

/-! Concrete fixtures used by witnesses and counterexamples. -/

/-- Text fixtures. -/
def catTxt : List Char := ['c', 'a', 't']

def dogTxt : List Char := ['d', 'o', 'g']

/-- A well-formed 1-by-1 raster with four bands. -/
def tinyRaster4 : Raster := { width := 1, height := 1, bands := [[[1]], [[2]], [[3]], [[4]]] }

/-- A well-formed 1-by-1 raster with only three bands. -/
def threeBandRaster : Raster := { width := 1, height := 1, bands := [[[7]], [[8]], [[9]]] }

/-- A well-formed non-square raster: 50 pixels wide, 1 pixel high, four
bands. -/
def wideRaster : Raster :=
  { width := 50, height := 1, bands := List.replicate 4 [List.replicate 50 0] }

/-- An annotation document with a single name element. -/
def oneNameDoc : XElem :=
  XElem.node ['a'] none [XElem.node nameTag (some catTxt) []]

/-- An annotation document with two name elements, in document order cat
then dog. -/
def twoNameDoc : XElem :=
  XElem.node ['a'] none
    [XElem.node nameTag (some catTxt) [],
     XElem.node nameTag (some dogTxt) []]

/-- An annotation document with no name element. -/
def noNameDoc : XElem := XElem.node ['a'] none [XElem.node ['b'] (some ['x']) []]

/-- Specification reading of the masking, one row: the band values at the
column positions of the row where the alpha row is nonzero, left to
right. -/
def maskedRowMajorRow (brow arow : List Int) : List Int :=
  (List.range arow.length).filterMap (fun j =>
    if arow.getD j 0 ≠ 0 then some (brow.getD j 0) else none)

/-- Specification reading of `band[alpha != 0]`, as the spec words it: the
band values at the positions where the alpha band is nonzero, scanned row
by row (row-major order) with explicit row and column indexing. -/
def maskedRowMajor (band alpha : Band) : List Int :=
  (List.range alpha.length).flatMap (fun i =>
    maskedRowMajorRow (band.getD i []) (alpha.getD i []))

/-- Specification reading of the per-line cleanup: strip only the trailing
newline characters of the line. -/
def stripTrailingNewline (s : List Char) : List Char :=
  (s.reverse.dropWhile (· = '\n')).reverse

/-- Specification reading of the tokens of a map-file line: whitespace
tokens of the line after stripping the trailing newline and replacing
every backslash with a forward slash. -/
def lineTokens (line : List Char) : List (List Char) :=
  splitWs (replaceBackslash (stripTrailingNewline line))

/-- Twin of `processBands` following the wording of the specification: the
masked arrays fed to the resize calls are written as `maskedRowMajor`, the
band values at the row-major positions where alpha is nonzero. -/
def processBandsMaskSpec (resize : List Int → Nat → Nat → Band) (nX nY : Nat)
    (red green blue alpha : Band) : Except String (List Int) :=
  match assemble3 nX nY red green blue with
  | Except.error e => Except.error e
  | Except.ok _rgb =>
    match assemble3 nX nY (resize (maskedRowMajor red alpha) nX nY)
        (resize (maskedRowMajor green alpha) nX nY)
        (resize (maskedRowMajor blue alpha) nX nY) with
    | Except.error e => Except.error e
    | Except.ok (p0, p1, p2) => Except.ok (interleave3 p0.flatten p1.flatten p2.flatten)

/-- Twin of `processBandsFlip` with the masked arrays written as
`maskedRowMajor` of the flipped bands and the flipped alpha. -/
def processBandsFlipMaskSpec (resize : List Int → Nat → Nat → Band) (nX nY : Nat)
    (red green blue alpha : Band) : Except String (List Int) :=
  match assemble3 nX nY (resize (maskedRowMajor red.reverse alpha.reverse) nX nY)
      (resize (maskedRowMajor green.reverse alpha.reverse) nX nY)
      (resize (maskedRowMajor blue.reverse alpha.reverse) nX nY) with
  | Except.error e => Except.error e
  | Except.ok (p0, p1, p2) => Except.ok (interleave3 p0.flatten p1.flatten p2.flatten)

/-- Twin of `processBandsRotate` with the masked arrays written as
`maskedRowMajor`. -/
def processBandsRotateMaskSpec (resize : List Int → Nat → Nat → Band)
    (warp : Band × Band × Band → Nat → Nat → Band × Band × Band) (nX nY : Nat)
    (red green blue alpha : Band) : Except String (List Int) :=
  match assemble3 nX nY (resize (maskedRowMajor red alpha) nX nY)
      (resize (maskedRowMajor green alpha) nX nY)
      (resize (maskedRowMajor blue alpha) nX nY) with
  | Except.error e => Except.error e
  | Except.ok rgb_flip =>
    let rotated_rgb := warp rgb_flip nY nX
    Except.ok (interleave3 rotated_rgb.1.flatten rotated_rgb.2.1.flatten
      rotated_rgb.2.2.flatten)

/-! Helper lemmas about the embedding. -/

theorem resizeFill_spec : ResizeSpec resizeFill := by
  intro v a b
  refine ⟨List.length_replicate _ _, ?_⟩
  intro row hrow
  rw [(List.mem_replicate.1 hrow).2]
  exact List.length_replicate _ _

theorem warpFill_spec : WarpSpec warpFill := by
  intro p w h
  refine ⟨⟨List.length_replicate _ _, ?_⟩, ⟨List.length_replicate _ _, ?_⟩,
    ⟨List.length_replicate _ _, ?_⟩⟩ <;>
    · intro row hrow
      rw [(List.mem_replicate.1 hrow).2]
      exact List.length_replicate _ _

theorem mapE_ok_length {f : α → Except String β} :
    ∀ {xs : List α} {ys : List β}, mapE f xs = Except.ok ys → ys.length = xs.length := by
  intro xs
  induction xs with
  | nil => intro ys h; simp only [mapE] at h; cases h; rfl
  | cons x rest ih =>
    intro ys h
    simp only [mapE] at h
    cases hx : f x with
    | error e => rw [hx] at h; cases h
    | ok y =>
      rw [hx] at h
      cases hr : mapE f rest with
      | error e => rw [hr] at h; cases h
      | ok ys2 =>
        rw [hr] at h
        cases h
        simp [ih hr]

theorem mapE_ok_getD {f : α → Except String β} (dx : α) (dy : β) :
    ∀ {xs : List α} {ys : List β}, mapE f xs = Except.ok ys →
      ∀ i, i < xs.length → f (xs.getD i dx) = Except.ok (ys.getD i dy) := by
  intro xs
  induction xs with
  | nil => intro ys _ i hi; simp at hi
  | cons x rest ih =>
    intro ys h i hi
    simp only [mapE] at h
    cases hx : f x with
    | error e => rw [hx] at h; cases h
    | ok y =>
      rw [hx] at h
      cases hr : mapE f rest with
      | error e => rw [hr] at h; cases h
      | ok ys2 =>
        rw [hr] at h
        cases h
        cases i with
        | zero => simpa using hx
        | succ j =>
          simp only [List.getD_cons_succ]
          exact ih hr j (by simpa using hi)

theorem mapE_eq_map {f : α → Except String β} {g : α → β} :
    ∀ {xs : List α}, (∀ x ∈ xs, f x = Except.ok (g x)) →
      mapE f xs = Except.ok (xs.map g) := by
  intro xs
  induction xs with
  | nil => intro _; rfl
  | cons x rest ih =>
    intro h
    simp only [mapE]
    rw [h x (by simp), ih (fun y hy => h y (by simp [hy]))]
    rfl

theorem mapE_error_append {f : α → Except String β} {e : String} {bad : α}
    (hbad : f bad = Except.error e) :
    ∀ {pre : List α} (rest : List α), (∀ x ∈ pre, ∃ v, f x = Except.ok v) →
      mapE f (pre ++ bad :: rest) = Except.error e := by
  intro pre
  induction pre with
  | nil => intro rest _; simp only [List.nil_append, mapE]; rw [hbad]
  | cons p ps ih =>
    intro rest h
    obtain ⟨v, hv⟩ := h p (by simp)
    simp only [List.cons_append, mapE, List.append_eq]
    rw [hv, ih rest (fun y hy => h y (by simp [hy]))]

theorem mapE_all_ok {f : α → Except String β} :
    ∀ {xs : List α}, (∀ x ∈ xs, ∃ v, f x = Except.ok v) →
      ∃ ys, mapE f xs = Except.ok ys := by
  intro xs
  induction xs with
  | nil => intro _; exact ⟨[], rfl⟩
  | cons x rest ih =>
    intro h
    obtain ⟨v, hv⟩ := h x (by simp)
    obtain ⟨ys, hys⟩ := ih (fun y hy => h y (by simp [hy]))
    refine ⟨v :: ys, ?_⟩
    simp only [mapE]
    rw [hv, hys]

theorem BandShape_rect {m : Band} {a b : Nat} (h : BandShape m a b) :
    ∀ row ∈ m, row.length = ncols m := by
  intro row hrow
  cases m with
  | nil => cases hrow
  | cons r0 rest =>
    have h0 : r0.length = b := h.2 r0 (by simp)
    have hr : row.length = b := h.2 row hrow
    simp [ncols, h0, hr]

theorem broadcastTo_cond_ok {m : Band} {rows cols : Nat}
    (hc : (nrows m = 1 ∨ nrows m = rows) ∧ (ncols m = 1 ∨ ncols m = cols)) :
    broadcastTo m rows cols = Except.ok (expandRows m rows cols) := by
  simp [broadcastTo, hc]

theorem broadcastTo_cond_error {m : Band} {rows cols : Nat}
    (hc : ¬ ((nrows m = 1 ∨ nrows m = rows) ∧ (ncols m = 1 ∨ ncols m = cols))) :
    broadcastTo m rows cols = Except.error broadcastErrMsg := by
  simp [broadcastTo, hc]

theorem broadcastTo_ok_cond {m : Band} {rows cols : Nat} {p : Band}
    (h : broadcastTo m rows cols = Except.ok p) :
    (nrows m = 1 ∨ nrows m = rows) ∧ (ncols m = 1 ∨ ncols m = cols) := by
  by_cases hc : (nrows m = 1 ∨ nrows m = rows) ∧ (ncols m = 1 ∨ ncols m = cols)
  · exact hc
  · rw [broadcastTo_cond_error hc] at h; cases h

theorem expandRows_shape {m : Band} {rows cols : Nat}
    (hrect : ∀ row ∈ m, row.length = ncols m)
    (hc : (nrows m = 1 ∨ nrows m = rows) ∧ (ncols m = 1 ∨ ncols m = cols)) :
    BandShape (expandRows m rows cols) rows cols := by
  replace hc : (m.length = 1 ∨ m.length = rows) ∧ (ncols m = 1 ∨ ncols m = cols) := hc
  have hrow2 : ∀ row ∈ (if m.length = 1 then List.replicate rows (m.headD []) else m),
      row.length = ncols m := by
    by_cases h1 : m.length = 1
    · rw [if_pos h1]
      intro row hrow
      rw [(List.mem_replicate.1 hrow).2]
      cases m with
      | nil => simp at h1
      | cons r0 rest => simp [ncols]
    · rw [if_neg h1]
      exact hrect
  constructor
  · unfold expandRows
    rw [List.length_map]
    by_cases h1 : m.length = 1
    · rw [if_pos h1, List.length_replicate]
    · rw [if_neg h1]
      exact (hc.1).resolve_left h1
  · unfold expandRows
    intro row hrow
    obtain ⟨row0, hrow0, hexp⟩ := List.mem_map.1 hrow
    have hlen0 : row0.length = ncols m := hrow2 row0 hrow0
    subst hexp
    unfold expandRow
    by_cases hl : row0.length = 1
    · rw [if_pos hl, List.length_replicate]
    · rw [if_neg hl, hlen0]
      rcases hc.2 with h | h
      · rw [hlen0] at hl
        exact absurd h hl
      · exact h

theorem broadcastTo_ok_shape {m : Band} {rows cols : Nat} {p : Band}
    (hrect : ∀ row ∈ m, row.length = ncols m)
    (h : broadcastTo m rows cols = Except.ok p) : BandShape p rows cols := by
  have hc := broadcastTo_ok_cond h
  rw [broadcastTo_cond_ok hc] at h
  cases h
  exact expandRows_shape hrect hc

theorem BandShape_flatten_length {m : Band} {a b : Nat} (h : BandShape m a b) :
    m.flatten.length = a * b := by
  obtain ⟨hlen, hrows⟩ := h
  subst hlen
  induction m with
  | nil => simp
  | cons row rest ih =>
    simp only [List.flatten_cons, List.length_append, List.length_cons]
    rw [hrows row (by simp), ih (fun r hr => hrows r (by simp [hr]))]
    ring

theorem BandShape_reverse {m : Band} {a b : Nat} (h : BandShape m a b) :
    BandShape m.reverse a b := by
  refine ⟨by simp [h.1], ?_⟩
  intro row hrow
  exact h.2 row (List.mem_reverse.1 hrow)

theorem interleave3_length :
    ∀ (n : Nat) (a b c : List Int), a.length = n → b.length = n → c.length = n →
      (interleave3 a b c).length = 3 * n := by
  intro n
  induction n with
  | zero =>
    intro a b c ha hb hc
    rw [List.length_eq_zero] at ha hb hc
    subst ha
    subst hb
    subst hc
    rfl
  | succ k ih =>
    intro a b c ha hb hc
    cases a with
    | nil => simp at ha
    | cons x xs =>
      cases b with
      | nil => simp at hb
      | cons y ys =>
        cases c with
        | nil => simp at hc
        | cons z zs =>
          simp only [interleave3, List.length_cons]
          rw [ih xs ys zs (by simpa using ha) (by simpa using hb) (by simpa using hc)]
          omega

theorem interleave4_length :
    ∀ (n : Nat) (a b c d : List Int), a.length = n → b.length = n → c.length = n →
      d.length = n → (interleave4 a b c d).length = 4 * n := by
  intro n
  induction n with
  | zero =>
    intro a b c d ha hb hc hd
    rw [List.length_eq_zero] at ha hb hc hd
    subst ha
    subst hb
    subst hc
    subst hd
    rfl
  | succ k ih =>
    intro a b c d ha hb hc hd
    cases a with
    | nil => simp at ha
    | cons x xs =>
      cases b with
      | nil => simp at hb
      | cons y ys =>
        cases c with
        | nil => simp at hc
        | cons z zs =>
          cases d with
          | nil => simp at hd
          | cons w ws =>
            simp only [interleave4, List.length_cons]
            rw [ih xs ys zs ws (by simpa using ha) (by simpa using hb) (by simpa using hc)
              (by simpa using hd)]
            omega

theorem interleave4_replicate (n : Nat) (a b c d : Int) :
    interleave4 (List.replicate n a) (List.replicate n b) (List.replicate n c)
      (List.replicate n d) = (List.replicate n [a, b, c, d]).flatten := by
  induction n with
  | zero => rfl
  | succ k ih => simp only [List.replicate_succ, interleave4, List.flatten_cons, ih]; rfl

theorem flatten_replicate_replicate (a b : Nat) (z : Int) :
    (List.replicate a (List.replicate b z)).flatten = List.replicate (a * b) z := by
  induction a with
  | zero => simp
  | succ k ih =>
    simp only [List.replicate_succ, List.flatten_cons, ih]
    rw [Nat.succ_mul, Nat.add_comm, List.replicate_add]

theorem flatten_replicate_length (n : Nat) (l : List Int) :
    (List.replicate n l).flatten.length = n * l.length := by
  induction n with
  | zero => simp
  | succ k ih =>
    simp only [List.replicate_succ, List.flatten_cons, List.length_append, ih]
    ring

theorem bands_getD_mem {r : Raster} {k : Nat} (hk : k < r.bands.length) :
    r.bands.getD k [] ∈ r.bands := by
  rw [List.getD_eq_getElem?_getD, List.getElem?_eq_getElem hk]
  exact List.getElem_mem hk

theorem WF_band_shape {r : Raster} (hwf : r.WF) {k : Nat} (hk : k < r.bands.length) :
    BandShape (r.bands.getD k []) r.height r.width :=
  ⟨(hwf _ (bands_getD_mem hk)).1, (hwf _ (bands_getD_mem hk)).2⟩

theorem rasterio_read_ok {r : Raster} {k : Nat} (h1 : 1 ≤ k) (hk : k ≤ r.bands.length) :
    rasterio_read r k = Except.ok (r.bands.getD (k - 1) []) := by
  unfold rasterio_read
  rw [List.getElem?_eq_getElem (show k - 1 < r.bands.length by omega)]
  rw [List.getD_eq_getElem?_getD, List.getElem?_eq_getElem (show k - 1 < r.bands.length by omega)]
  rfl

theorem rasterio_read_err {r : Raster} {k : Nat} (hk : r.bands.length < k) :
    rasterio_read r k = Except.error bandIndexMsg := by
  unfold rasterio_read
  rw [List.getElem?_eq_none (by omega)]

theorem rasterio_read_error_msg {r : Raster} {k : Nat} {e : String}
    (h : rasterio_read r k = Except.error e) : e = bandIndexMsg := by
  unfold rasterio_read at h
  cases hk : r.bands[k - 1]? with
  | none => rw [hk] at h; cases h; rfl
  | some b => rw [hk] at h; cases h

theorem preprocess_image_ok_of_bands {r : Raster} (h4 : 4 ≤ r.bands.length) :
    preprocess_image (some r) =
      Except.ok (r.width, r.height, r.bands.getD 0 [], r.bands.getD 1 [],
        r.bands.getD 2 [], r.bands.getD 3 []) := by
  have e1 : rasterio_read r 1 = Except.ok (r.bands.getD 0 []) :=
    rasterio_read_ok (by omega) (by omega)
  have e2 : rasterio_read r 2 = Except.ok (r.bands.getD 1 []) :=
    rasterio_read_ok (by omega) (by omega)
  have e3 : rasterio_read r 3 = Except.ok (r.bands.getD 2 []) :=
    rasterio_read_ok (by omega) (by omega)
  have e4 : rasterio_read r 4 = Except.ok (r.bands.getD 3 []) :=
    rasterio_read_ok (by omega) (by omega)
  simp only [preprocess_image, e1, e2, e3, e4]

theorem preprocess_image_err_of_bands {r : Raster} (h4 : r.bands.length < 4) :
    preprocess_image (some r) = Except.error bandIndexMsg := by
  have hread4 : rasterio_read r 4 = Except.error bandIndexMsg := rasterio_read_err (by omega)
  simp only [preprocess_image]
  cases h1 : rasterio_read r 1 with
  | error e => simp only [rasterio_read_error_msg h1]
  | ok red =>
    cases h2 : rasterio_read r 2 with
    | error e => simp only [rasterio_read_error_msg h2]
    | ok green =>
      cases h3 : rasterio_read r 3 with
      | error e => simp only [rasterio_read_error_msg h3]
      | ok blue => simp only [hread4]

theorem processImage_eq_processBands (resize : List Int → Nat → Nat → Band)
    (r : Raster) (h4 : 4 ≤ r.bands.length) :
    processImage resize (some r) =
      processBands resize r.width r.height (r.bands.getD 0 []) (r.bands.getD 1 [])
        (r.bands.getD 2 []) (r.bands.getD 3 []) := by
  simp only [processImage, preprocess_image_ok_of_bands h4]

theorem processImageFlip_eq_processBands (resize : List Int → Nat → Nat → Band)
    (r : Raster) (h4 : 4 ≤ r.bands.length) :
    processImageFlip resize (some r) =
      processBandsFlip resize r.width r.height (r.bands.getD 0 []) (r.bands.getD 1 [])
        (r.bands.getD 2 []) (r.bands.getD 3 []) := by
  simp only [processImageFlip, preprocess_image_ok_of_bands h4]

theorem processImageRotate_eq_processBands (resize : List Int → Nat → Nat → Band)
    (warp : Band × Band × Band → Nat → Nat → Band × Band × Band)
    (r : Raster) (h4 : 4 ≤ r.bands.length) :
    processImageRotate resize warp (some r) =
      processBandsRotate resize warp r.width r.height (r.bands.getD 0 [])
        (r.bands.getD 1 []) (r.bands.getD 2 []) (r.bands.getD 3 []) := by
  simp only [processImageRotate, preprocess_image_ok_of_bands h4]

theorem assemble3_ok_inv {rows cols : Nat} {a b c p0 p1 p2 : Band}
    (h : assemble3 rows cols a b c = Except.ok (p0, p1, p2)) :
    broadcastTo a rows cols = Except.ok p0 ∧ broadcastTo b rows cols = Except.ok p1 ∧
      broadcastTo c rows cols = Except.ok p2 := by
  unfold assemble3 at h
  cases ha : broadcastTo a rows cols with
  | error e => rw [ha] at h; cases h
  | ok x =>
    rw [ha] at h
    cases hb : broadcastTo b rows cols with
    | error e => rw [hb] at h; cases h
    | ok y =>
      rw [hb] at h
      cases hcc : broadcastTo c rows cols with
      | error e => rw [hcc] at h; cases h
      | ok z =>
        rw [hcc] at h
        cases h
        exact ⟨rfl, rfl, rfl⟩

theorem assemble3_ok_of {rows cols : Nat} {a b c x y z : Band}
    (hx : broadcastTo a rows cols = Except.ok x) (hy : broadcastTo b rows cols = Except.ok y)
    (hz : broadcastTo c rows cols = Except.ok z) :
    assemble3 rows cols a b c = Except.ok (x, y, z) := by
  unfold assemble3
  rw [hx, hy, hz]

theorem broadcastTo_of_shape {m : Band} {rows cols : Nat} (hs : BandShape m rows cols)
    (hz : rows = 0 → cols = 0) :
    broadcastTo m rows cols = Except.ok (expandRows m rows cols) ∧
      BandShape (expandRows m rows cols) rows cols := by
  have hc : (nrows m = 1 ∨ nrows m = rows) ∧ (ncols m = 1 ∨ ncols m = cols) := by
    refine ⟨Or.inr hs.1, ?_⟩
    cases m with
    | nil =>
      right
      have h0 : rows = 0 := by
        have := hs.1
        simpa using this.symm
      have := hz h0
      simp [ncols, this]
    | cons r0 rest =>
      right
      have := hs.2 r0 (by simp)
      simp [ncols, this]
  exact ⟨broadcastTo_cond_ok hc, expandRows_shape (BandShape_rect hs) hc⟩

theorem broadcast_swap_ok_iff {m : Band} {wd ht : Nat} (hs : BandShape m ht wd) :
    (∃ p, broadcastTo m wd ht = Except.ok p) ↔ wd = ht := by
  constructor
  · rintro ⟨p, hp⟩
    have hc := broadcastTo_ok_cond hp
    cases m with
    | nil =>
      have hht : ht = 0 := by
        have := hs.1
        simpa using this.symm
      have h1 : (0 : Nat) = 1 ∨ (0 : Nat) = wd := hc.1
      omega
    | cons row rest =>
      have hht : ht = rest.length + 1 := by
        have := hs.1
        simpa using this.symm
      have hrow : row.length = wd := hs.2 row (by simp)
      have h1 := hc.1
      simp only [nrows, List.length_cons, ← hht] at h1
      have h2 := hc.2
      simp only [ncols, List.headD_cons, hrow] at h2
      omega
  · intro heq
    subst heq
    exact ⟨_, (broadcastTo_of_shape hs (fun h => h)).1⟩

theorem broadcast_50_ok_iff {m : Band} {ht wd : Nat} (hs : BandShape m ht wd) :
    (∃ p, broadcastTo m 50 50 = Except.ok p) ↔
      ((ht = 1 ∨ ht = 50) ∧ (wd = 1 ∨ wd = 50)) := by
  cases m with
  | nil =>
    have hht : ht = 0 := by
      have := hs.1
      simpa using this.symm
    constructor
    · rintro ⟨p, hp⟩
      have hc := broadcastTo_ok_cond hp
      have h1 : (0 : Nat) = 1 ∨ (0 : Nat) = 50 := hc.1
      omega
    · rintro ⟨h1, _⟩
      omega
  | cons row rest =>
    have hht : ht = rest.length + 1 := by
      have := hs.1
      simpa using this.symm
    have hrow : row.length = wd := hs.2 row (by simp)
    constructor
    · rintro ⟨p, hp⟩
      have hc := broadcastTo_ok_cond hp
      have h1 := hc.1
      simp only [nrows, List.length_cons, ← hht] at h1
      have h2 := hc.2
      simp only [ncols, List.headD_cons, hrow] at h2
      exact ⟨h1, h2⟩
    · rintro ⟨h1, h2⟩
      refine ⟨expandRows (row :: rest) 50 50, broadcastTo_cond_ok ⟨?_, ?_⟩⟩
      · simp only [nrows, List.length_cons, ← hht]
        exact h1
      · simp only [ncols, List.headD_cons, hrow]
        exact h2

theorem processBands_ok_length {resize : List Int → Nat → Nat → Band}
    (hres : ResizeSpec resize) {nX nY : Nat} {red green blue alpha : Band}
    {v : List Int}
    (h : processBands resize nX nY red green blue alpha = Except.ok v) :
    v.length = nX * nY * 3 := by
  unfold processBands at h
  cases ha1 : assemble3 nX nY red green blue with
  | error e =>
    rw [ha1] at h
    cases h
  | ok t =>
    simp only [ha1] at h
    cases ha2 : assemble3 nX nY (resize (maskSelect red alpha) nX nY)
        (resize (maskSelect green alpha) nX nY)
        (resize (maskSelect blue alpha) nX nY) with
    | error e =>
      rw [ha2] at h
      cases h
    | ok p =>
      obtain ⟨p0, p1, p2⟩ := p
      simp only [ha2] at h
      cases h
      obtain ⟨h0, h1, h2⟩ := assemble3_ok_inv ha2
      have s0 := broadcastTo_ok_shape (BandShape_rect (hres _ nX nY)) h0
      have s1 := broadcastTo_ok_shape (BandShape_rect (hres _ nX nY)) h1
      have s2 := broadcastTo_ok_shape (BandShape_rect (hres _ nX nY)) h2
      rw [interleave3_length (nX * nY) _ _ _ (BandShape_flatten_length s0)
        (BandShape_flatten_length s1) (BandShape_flatten_length s2)]
      ring

theorem processBandsFlip_ok_length {resize : List Int → Nat → Nat → Band}
    (hres : ResizeSpec resize) {nX nY : Nat} {red green blue alpha : Band}
    {v : List Int}
    (h : processBandsFlip resize nX nY red green blue alpha = Except.ok v) :
    v.length = nX * nY * 3 := by
  unfold processBandsFlip at h
  cases ha2 : assemble3 nX nY (resize (maskSelect red.reverse alpha.reverse) nX nY)
      (resize (maskSelect green.reverse alpha.reverse) nX nY)
      (resize (maskSelect blue.reverse alpha.reverse) nX nY) with
  | error e =>
    rw [ha2] at h
    cases h
  | ok p =>
    obtain ⟨p0, p1, p2⟩ := p
    simp only [ha2] at h
    cases h
    obtain ⟨h0, h1, h2⟩ := assemble3_ok_inv ha2
    have s0 := broadcastTo_ok_shape (BandShape_rect (hres _ nX nY)) h0
    have s1 := broadcastTo_ok_shape (BandShape_rect (hres _ nX nY)) h1
    have s2 := broadcastTo_ok_shape (BandShape_rect (hres _ nX nY)) h2
    rw [interleave3_length (nX * nY) _ _ _ (BandShape_flatten_length s0)
      (BandShape_flatten_length s1) (BandShape_flatten_length s2)]
    ring

theorem processBandsRotate_ok_length {resize : List Int → Nat → Nat → Band}
    {warp : Band × Band × Band → Nat → Nat → Band × Band × Band}
    (hwarp : WarpSpec warp) {nX nY : Nat} {red green blue alpha : Band}
    {v : List Int}
    (h : processBandsRotate resize warp nX nY red green blue alpha = Except.ok v) :
    v.length = nX * nY * 3 := by
  unfold processBandsRotate at h
  cases ha2 : assemble3 nX nY (resize (maskSelect red alpha) nX nY)
      (resize (maskSelect green alpha) nX nY)
      (resize (maskSelect blue alpha) nX nY) with
  | error e =>
    rw [ha2] at h
    cases h
  | ok rgb_flip =>
    simp only [ha2] at h
    cases h
    obtain ⟨w0, w1, w2⟩ := hwarp rgb_flip nY nX
    rw [interleave3_length (nX * nY) _ _ _ (BandShape_flatten_length w0)
      (BandShape_flatten_length w1) (BandShape_flatten_length w2)]
    ring

theorem RF.broadcastPhase_ok_length {red green blue nir : Band} {v : List Int}
    (hred : ∀ row ∈ red, row.length = ncols red)
    (hgreen : ∀ row ∈ green, row.length = ncols green)
    (hblue : ∀ row ∈ blue, row.length = ncols blue)
    (hnir : ∀ row ∈ nir, row.length = ncols nir)
    (h : RF.broadcastPhase red green blue nir = Except.ok v) :
    v.length = 50 * 50 * 4 := by
  unfold RF.broadcastPhase at h
  cases h0 : broadcastTo red 50 50 with
  | error e =>
    rw [h0] at h
    cases h
  | ok p0 =>
    simp only [h0] at h
    cases h1 : broadcastTo green 50 50 with
    | error e =>
      rw [h1] at h
      cases h
    | ok p1 =>
      simp only [h1] at h
      cases h2 : broadcastTo blue 50 50 with
      | error e =>
        rw [h2] at h
        cases h
      | ok p2 =>
        simp only [h2] at h
        cases h3 : broadcastTo nir 50 50 with
        | error e =>
          rw [h3] at h
          cases h
        | ok p3 =>
          simp only [h3] at h
          cases h
          have s0 := broadcastTo_ok_shape hred h0
          have s1 := broadcastTo_ok_shape hgreen h1
          have s2 := broadcastTo_ok_shape hblue h2
          have s3 := broadcastTo_ok_shape hnir h3
          rw [interleave4_length (50 * 50) _ _ _ _ (BandShape_flatten_length s0)
            (BandShape_flatten_length s1) (BandShape_flatten_length s2)
            (BandShape_flatten_length s3)]

theorem RF.GetRasterBand_ok {r : Raster} {k : Nat} (h1 : 1 ≤ k) (hk : k ≤ r.bands.length) :
    RF.GetRasterBand r k = Except.ok (r.bands.getD (k - 1) []) := by
  unfold RF.GetRasterBand
  rw [List.getElem?_eq_getElem (show k - 1 < r.bands.length by omega)]
  rw [List.getD_eq_getElem?_getD, List.getElem?_eq_getElem (show k - 1 < r.bands.length by omega)]
  rfl

theorem RF.GetRasterBand_err {r : Raster} {k : Nat} (hk : r.bands.length < k) :
    RF.GetRasterBand r k = Except.error noneTypeMsg := by
  unfold RF.GetRasterBand
  rw [List.getElem?_eq_none (by omega)]

theorem RF.processImage_eq_broadcastPhase {r : Raster} (h4 : 4 ≤ r.bands.length) :
    RF.processImage r =
      RF.broadcastPhase (r.bands.getD 0 []) (r.bands.getD 1 []) (r.bands.getD 2 [])
        (r.bands.getD 3 []) := by
  have e1 : RF.GetRasterBand r 1 = Except.ok (r.bands.getD 0 []) :=
    RF.GetRasterBand_ok (by omega) (by omega)
  have e2 : RF.GetRasterBand r 2 = Except.ok (r.bands.getD 1 []) :=
    RF.GetRasterBand_ok (by omega) (by omega)
  have e3 : RF.GetRasterBand r 3 = Except.ok (r.bands.getD 2 []) :=
    RF.GetRasterBand_ok (by omega) (by omega)
  have e4 : RF.GetRasterBand r 4 = Except.ok (r.bands.getD 3 []) :=
    RF.GetRasterBand_ok (by omega) (by omega)
  simp only [RF.processImage, e1, e2, e3, e4]

theorem RF.processImage_err_of_bands {r : Raster} (h4 : r.bands.length < 4) :
    RF.processImage r = Except.error noneTypeMsg := by
  have e4 : RF.GetRasterBand r 4 = Except.error noneTypeMsg :=
    RF.GetRasterBand_err (by omega)
  simp only [RF.processImage, e4]

theorem RF.processImage_ok_length {r : Raster} (hwf : r.WF) {v : List Int}
    (h : RF.processImage r = Except.ok v) : v.length = 50 * 50 * 4 := by
  by_cases h4 : 4 ≤ r.bands.length
  · rw [RF.processImage_eq_broadcastPhase h4] at h
    exact RF.broadcastPhase_ok_length
      (BandShape_rect (WF_band_shape hwf (by omega)))
      (BandShape_rect (WF_band_shape hwf (by omega)))
      (BandShape_rect (WF_band_shape hwf (by omega)))
      (BandShape_rect (WF_band_shape hwf (by omega))) h
  · rw [RF.processImage_err_of_bands (by omega)] at h
    cases h

theorem resize_target_broadcast {resize : List Int → Nat → Nat → Band}
    (hres : ResizeSpec resize) (nX nY : Nat) (hz : nX = 0 → nY = 0) (vals : List Int) :
    ∃ p, broadcastTo (resize vals nX nY) nX nY = Except.ok p :=
  ⟨_, (broadcastTo_of_shape (hres vals nX nY) hz).1⟩

theorem processBands_ok_iff {resize : List Int → Nat → Nat → Band}
    (hres : ResizeSpec resize) {wd ht : Nat} {red green blue alpha : Band}
    (hred : BandShape red ht wd) (hgreen : BandShape green ht wd)
    (hblue : BandShape blue ht wd) :
    (∃ v, processBands resize wd ht red green blue alpha = Except.ok v) ↔ wd = ht := by
  constructor
  · rintro ⟨v, hv⟩
    unfold processBands at hv
    cases ha1 : assemble3 wd ht red green blue with
    | error e =>
      rw [ha1] at hv
      cases hv
    | ok t =>
      obtain ⟨t0, t1, t2⟩ := t
      obtain ⟨h0, _, _⟩ := assemble3_ok_inv ha1
      exact (broadcast_swap_ok_iff hred).1 ⟨t0, h0⟩
  · intro heq
    subst heq
    obtain ⟨q0, h0⟩ := (broadcast_swap_ok_iff hred).2 rfl
    obtain ⟨q1, h1⟩ := (broadcast_swap_ok_iff hgreen).2 rfl
    obtain ⟨q2, h2⟩ := (broadcast_swap_ok_iff hblue).2 rfl
    have ha1 := assemble3_ok_of h0 h1 h2
    obtain ⟨s0, hs0⟩ := resize_target_broadcast hres wd wd (fun h => h)
      (maskSelect red alpha)
    obtain ⟨s1, hs1⟩ := resize_target_broadcast hres wd wd (fun h => h)
      (maskSelect green alpha)
    obtain ⟨s2, hs2⟩ := resize_target_broadcast hres wd wd (fun h => h)
      (maskSelect blue alpha)
    have ha2 := assemble3_ok_of hs0 hs1 hs2
    refine ⟨interleave3 s0.flatten s1.flatten s2.flatten, ?_⟩
    unfold processBands
    simp only [ha1, ha2]

theorem RF.broadcastPhase_ok_iff {ht wd : Nat} {red green blue nir : Band}
    (hred : BandShape red ht wd) (hgreen : BandShape green ht wd)
    (hblue : BandShape blue ht wd) (hnir : BandShape nir ht wd) :
    (∃ v, RF.broadcastPhase red green blue nir = Except.ok v) ↔
      ((ht = 1 ∨ ht = 50) ∧ (wd = 1 ∨ wd = 50)) := by
  constructor
  · rintro ⟨v, hv⟩
    unfold RF.broadcastPhase at hv
    cases h0 : broadcastTo red 50 50 with
    | error e =>
      rw [h0] at hv
      cases hv
    | ok p0 => exact (broadcast_50_ok_iff hred).1 ⟨p0, h0⟩
  · rintro ⟨h1, h2⟩
    obtain ⟨p0, h0⟩ := (broadcast_50_ok_iff hred).2 ⟨h1, h2⟩
    obtain ⟨p1, hp1⟩ := (broadcast_50_ok_iff hgreen).2 ⟨h1, h2⟩
    obtain ⟨p2, hp2⟩ := (broadcast_50_ok_iff hblue).2 ⟨h1, h2⟩
    obtain ⟨p3, hp3⟩ := (broadcast_50_ok_iff hnir).2 ⟨h1, h2⟩
    refine ⟨interleave4 p0.flatten p1.flatten p2.flatten p3.flatten, ?_⟩
    unfold RF.broadcastPhase
    simp only [h0, hp1, hp2, hp3]

theorem RF.processImage_ok_iff {r : Raster} (hwf : r.WF) :
    (∃ v, RF.processImage r = Except.ok v) ↔
      (4 ≤ r.bands.length ∧ (r.height = 1 ∨ r.height = 50) ∧
        (r.width = 1 ∨ r.width = 50)) := by
  by_cases h4 : 4 ≤ r.bands.length
  · rw [RF.processImage_eq_broadcastPhase h4]
    rw [RF.broadcastPhase_ok_iff (WF_band_shape hwf (by omega))
      (WF_band_shape hwf (by omega)) (WF_band_shape hwf (by omega))
      (WF_band_shape hwf (by omega))]
    constructor
    · intro h
      exact ⟨h4, h⟩
    · intro h
      exact h.2
  · rw [RF.processImage_err_of_bands (by omega)]
    constructor
    · rintro ⟨v, hv⟩
      cases hv
    · rintro ⟨hb, _⟩
      exact absurd hb h4

theorem processImage_square_iff {resize : List Int → Nat → Nat → Band}
    (hres : ResizeSpec resize) {r : Raster} (hwf : r.WF) (h4 : 4 ≤ r.bands.length) :
    (∃ v, processImage resize (some r) = Except.ok v) ↔ r.width = r.height := by
  rw [processImage_eq_processBands resize r h4]
  exact processBands_ok_iff hres (WF_band_shape hwf (by omega))
    (WF_band_shape hwf (by omega)) (WF_band_shape hwf (by omega))

theorem broadcastTo_one_one (z : Int) (rows cols : Nat) :
    broadcastTo [[z]] rows cols =
      Except.ok (List.replicate rows (List.replicate cols z)) := by
  have hc : (nrows [[z]] = 1 ∨ nrows [[z]] = rows) ∧
      (ncols [[z]] = 1 ∨ ncols [[z]] = cols) := ⟨Or.inl rfl, Or.inl rfl⟩
  rw [broadcastTo_cond_ok hc]
  unfold expandRows expandRow
  simp

theorem broadcastTo_row_50 {row : List Int} (h : row.length = 50) :
    broadcastTo [row] 50 50 = Except.ok (List.replicate 50 row) := by
  have hc : (nrows [row] = 1 ∨ nrows [row] = 50) ∧ (ncols [row] = 1 ∨ ncols [row] = 50) := by
    refine ⟨Or.inl rfl, Or.inr ?_⟩
    simp [ncols, h]
  rw [broadcastTo_cond_ok hc]
  unfold expandRows expandRow
  simp [h]

theorem RF.processImage_single_pixel (w h : Nat) (a b c d : Int) :
    RF.processImage { width := w, height := h, bands := [[[a]], [[b]], [[c]], [[d]]] } =
      Except.ok ((List.replicate 2500 [a, b, c, d]).flatten) := by
  have heq := RF.processImage_eq_broadcastPhase
    (r := { width := w, height := h, bands := [[[a]], [[b]], [[c]], [[d]]] })
    (by simp)
  rw [heq]
  unfold RF.broadcastPhase
  have g0 : ({ width := w, height := h, bands := [[[a]], [[b]], [[c]], [[d]]] } : Raster).bands.getD 0 [] = [[a]] := rfl
  have g1 : ({ width := w, height := h, bands := [[[a]], [[b]], [[c]], [[d]]] } : Raster).bands.getD 1 [] = [[b]] := rfl
  have g2 : ({ width := w, height := h, bands := [[[a]], [[b]], [[c]], [[d]]] } : Raster).bands.getD 2 [] = [[c]] := rfl
  have g3 : ({ width := w, height := h, bands := [[[a]], [[b]], [[c]], [[d]]] } : Raster).bands.getD 3 [] = [[d]] := rfl
  rw [g0, g1, g2, g3]
  simp only [broadcastTo_one_one]
  rw [flatten_replicate_replicate, flatten_replicate_replicate, flatten_replicate_replicate,
    flatten_replicate_replicate]
  norm_num [interleave4_replicate]

theorem wideRaster_WF : wideRaster.WF := by
  intro b hb
  unfold wideRaster at hb
  rw [(List.mem_replicate.1 hb).2]
  constructor
  · rfl
  · intro row hrow
    simp only [List.mem_singleton] at hrow
    rw [hrow]
    simp [wideRaster]

theorem RF.processImage_wide :
    RF.processImage wideRaster =
      Except.ok ((List.replicate 2500 [(0 : Int), 0, 0, 0]).flatten) := by
  have heq := RF.processImage_eq_broadcastPhase (r := wideRaster) (by simp [wideRaster])
  rw [heq]
  unfold RF.broadcastPhase
  have g0 : wideRaster.bands.getD 0 [] = [List.replicate 50 (0 : Int)] := rfl
  have g1 : wideRaster.bands.getD 1 [] = [List.replicate 50 (0 : Int)] := rfl
  have g2 : wideRaster.bands.getD 2 [] = [List.replicate 50 (0 : Int)] := rfl
  have g3 : wideRaster.bands.getD 3 [] = [List.replicate 50 (0 : Int)] := rfl
  rw [g0, g1, g2, g3]
  have hb : broadcastTo [List.replicate 50 (0 : Int)] 50 50 =
      Except.ok (List.replicate 50 (List.replicate 50 (0 : Int))) :=
    broadcastTo_row_50 (by simp)
  simp only [hb]
  rw [flatten_replicate_replicate]
  norm_num [interleave4_replicate]

mutual

theorem iterName_tag : ∀ (x : XElem) (e : XElem), e ∈ iterName x → e.tag = nameTag
  | XElem.node t tx cs, e, he => by
    unfold iterName at he
    rcases List.mem_append.1 he with h1 | h2
    · by_cases ht : t = nameTag
      · rw [if_pos ht] at h1
        rw [List.mem_singleton.1 h1]
        exact ht
      · rw [if_neg ht] at h1
        cases h1
    · exact iterNameList_tag cs e h2

theorem iterNameList_tag : ∀ (xs : List XElem) (e : XElem), e ∈ iterNameList xs → e.tag = nameTag
  | [], e, he => by
    unfold iterNameList at he
    cases he
  | x :: xs, e, he => by
    unfold iterNameList at he
    rcases List.mem_append.1 he with h1 | h2
    · exact iterName_tag x e h1
    · exact iterNameList_tag xs e h2

end

theorem extract_classification_of_names {root : XElem} {e : XElem}
    (h : (iterName root).getLast? = some e) :
    extract_classification (some root) = Except.ok e.text := by
  simp only [extract_classification, h]

theorem extract_classification_no_name {root : XElem} (h : iterName root = []) :
    extract_classification (some root) = Except.error unboundLocalMsg := by
  simp only [extract_classification, h]
  rfl

theorem maskRow_eq : ∀ (arow brow : List Int), brow.length = arow.length →
    ((brow.zip arow).filter (fun p => !(p.2 == 0))).map Prod.fst =
      maskedRowMajorRow brow arow := by
  intro arow
  induction arow with
  | nil =>
    intro brow h
    rw [List.length_nil, List.length_eq_zero] at h
    subst h
    rfl
  | cons a as ih =>
    intro brow h
    cases brow with
    | nil => simp at h
    | cons b bs =>
      have hlen : bs.length = as.length := by simpa using h
      have hrec := ih bs hlen
      unfold maskedRowMajorRow
      rw [List.length_cons, List.range_succ_eq_map, List.filterMap_cons, List.filterMap_map]
      have hcomp : ((fun j => if (a :: as).getD j 0 ≠ 0 then some ((b :: bs).getD j 0)
            else none) ∘ Nat.succ)
          = (fun j => if as.getD j 0 ≠ 0 then some (bs.getD j 0) else none) := by
        funext j
        simp only [Function.comp_apply, List.getD_cons_succ]
      rw [hcomp]
      unfold maskedRowMajorRow at hrec
      rw [← hrec]
      by_cases ha : a = 0
      · simp [ha]
      · simp [ha]

theorem maskedRowMajor_cons (brow : List Int) (brest : Band) (arow : List Int)
    (arest : Band) :
    maskedRowMajor (brow :: brest) (arow :: arest) =
      maskedRowMajorRow brow arow ++ maskedRowMajor brest arest := by
  unfold maskedRowMajor
  rw [List.length_cons, List.range_succ_eq_map, List.flatMap_cons, List.flatMap_map]
  simp only [List.getD_cons_zero, List.getD_cons_succ]

theorem maskSelect_eq_rowMajor : ∀ (alpha band : Band),
    band.length = alpha.length →
    (∀ i, (band.getD i []).length = (alpha.getD i []).length) →
    maskSelect band alpha = maskedRowMajor band alpha := by
  intro alpha
  induction alpha with
  | nil =>
    intro band h hrows
    rw [List.length_nil, List.length_eq_zero] at h
    subst h
    rfl
  | cons arow arest ih =>
    intro band h hrows
    cases band with
    | nil => simp at h
    | cons brow brest =>
      have hrow0 : brow.length = arow.length := by simpa using hrows 0
      unfold maskSelect
      simp only [List.flatten_cons]
      rw [List.zip_append hrow0, List.filter_append, List.map_append]
      rw [maskRow_eq arow brow hrow0]
      rw [maskedRowMajor_cons]
      congr 1
      have htail := ih brest (by simpa using h) (fun i => by simpa using hrows (i + 1))
      unfold maskSelect at htail
      exact htail

theorem BandShape_getD_length {m : Band} {a b : Nat} (h : BandShape m a b) (i : Nat) :
    (m.getD i []).length = if i < a then b else 0 := by
  by_cases hi : i < a
  · rw [if_pos hi]
    have hlt : i < m.length := by
      rw [h.1]
      exact hi
    rw [List.getD_eq_getElem?_getD, List.getElem?_eq_getElem hlt]
    exact h.2 _ (List.getElem_mem hlt)
  · rw [if_neg hi]
    rw [List.getD_eq_getElem?_getD, List.getElem?_eq_none (by rw [h.1]; omega)]
    rfl

theorem maskSelect_eq_of_shapes {band alpha : Band} {ht wd : Nat}
    (hb : BandShape band ht wd) (ha : BandShape alpha ht wd) :
    maskSelect band alpha = maskedRowMajor band alpha := by
  apply maskSelect_eq_rowMajor
  · rw [hb.1, ha.1]
  · intro i
    rw [BandShape_getD_length hb i, BandShape_getD_length ha i]

theorem splitWsAux_cons_ws {c : Char} (hc : isPySpace c = true) (rest : List Char) :
    splitWsAux (c :: rest) [] = splitWsAux rest [] := by
  conv_lhs => rw [splitWsAux]
  rw [if_pos hc]
  rfl

theorem splitWs_dropWhile_nl : ∀ (s : List Char),
    splitWs (s.dropWhile (· = '\n')) = splitWs s := by
  intro s
  induction s with
  | nil => rfl
  | cons c rest ih =>
    rw [List.dropWhile_cons]
    by_cases hc : c = '\n'
    · rw [if_pos (by simp [hc])]
      rw [ih]
      subst hc
      unfold splitWs
      rw [splitWsAux_cons_ws (by rfl)]
    · rw [if_neg (by simp [hc])]

theorem replaceBackslash_dropWhile (s : List Char) :
    (replaceBackslash s).dropWhile (· = '\n') =
      replaceBackslash (s.dropWhile (· = '\n')) := by
  unfold replaceBackslash
  rw [List.dropWhile_map]
  have hp : ((fun x => decide (x = '\n')) ∘ fun ch => if ch = '\\' then '/' else ch)
      = (fun x => decide (x = '\n')) := by
    funext ch
    by_cases hc : ch = '\\'
    · subst hc
      rfl
    · simp [Function.comp, hc]
  rw [hp]

theorem codeTokens_eq (line : List Char) :
    splitWs (replaceBackslash (pyStrip '\n' line)) = lineTokens line := by
  unfold pyStrip lineTokens stripTrailingNewline
  rw [← replaceBackslash_dropWhile, splitWs_dropWhile_nl]

theorem mapLine_ok_of_tokens {path line : List Char}
    (h2 : 2 ≤ (lineTokens line).length) :
    mapLine path line = Except.ok (path ++ '/' :: (lineTokens line).getD 0 [],
      path ++ '/' :: (lineTokens line).getD 1 []) := by
  simp only [mapLine, codeTokens_eq]
  cases htoks : lineTokens line with
  | nil =>
    rw [htoks] at h2
    simp at h2
  | cons t0 ts =>
    cases ts with
    | nil =>
      rw [htoks] at h2
      simp at h2
    | cons t1 ts2 => rfl

theorem mapLine_err_of_tokens {path line : List Char}
    (h2 : (lineTokens line).length < 2) :
    mapLine path line = Except.error tokenIndexMsg := by
  simp only [mapLine, codeTokens_eq]
  cases htoks : lineTokens line with
  | nil => rfl
  | cons t0 ts =>
    cases ts with
    | nil => rfl
    | cons t1 ts2 =>
      rw [htoks] at h2
      exfalso
      simp only [List.length_cons] at h2
      omega

theorem except_ok_unique {α : Type} {x : Except String α} {a b : α}
    (h1 : x = Except.ok a) (h2 : x = Except.ok b) : a = b := by
  rw [h1] at h2
  cases h2
  rfl

theorem getD_map_u {α β : Type} (f : α → β) (l : List α) (i : Nat) (d : α) :
    (l.map f).getD i (f d) = f (l.getD i d) := by
  rw [List.getD_eq_getElem?_getD, List.getD_eq_getElem?_getD, List.getElem?_map]
  cases l[i]? <;> rfl

theorem flatten_of_singletons {α : Type} (d : α) :
    ∀ {ls : List (List α)}, (∀ x ∈ ls, ∃ a, x = [a]) →
      ls.flatten = ls.map (fun x => x.headD d) := by
  intro ls
  induction ls with
  | nil => intro _; rfl
  | cons x rest ih =>
    intro h
    obtain ⟨a, ha⟩ := h x (by simp)
    subst ha
    simp only [List.flatten_cons, List.map_cons, List.headD_cons, List.singleton_append]
    rw [ih (fun y hy => h y (by simp [hy]))]

theorem preprocess_training_data_ok_inv {resize : List Int → Nat → Nat → Band}
    {ip : List (Option Raster)} {lp : List (Option XElem)}
    {im : List (List Int)} {lb : List (Option (List Char))}
    (h : preprocess_training_data resize ip lp = Except.ok (im, lb)) :
    mapE (processImage resize) ip = Except.ok im ∧
      mapE extract_classification lp = Except.ok lb := by
  unfold preprocess_training_data at h
  cases h1 : mapE (processImage resize) ip with
  | error e => rw [h1] at h; cases h
  | ok images =>
    rw [h1] at h
    cases h2 : mapE extract_classification lp with
    | error e => rw [h2] at h; cases h
    | ok labels =>
      rw [h2] at h
      cases h
      exact ⟨rfl, rfl⟩

theorem augment_flip_ok_inv {resize : List Int → Nat → Nat → Band}
    {ip : List (Option Raster)} {lp : List (Option XElem)}
    {im : List (List Int)} {lb : List (Option (List Char))}
    (h : augment_flip resize ip lp = Except.ok (im, lb)) :
    mapE (processImageFlip resize) ip = Except.ok im ∧
      mapE extract_classification lp = Except.ok lb := by
  unfold augment_flip at h
  cases h1 : mapE (processImageFlip resize) ip with
  | error e => rw [h1] at h; cases h
  | ok images =>
    rw [h1] at h
    cases h2 : mapE extract_classification lp with
    | error e => rw [h2] at h; cases h
    | ok labels =>
      rw [h2] at h
      cases h
      exact ⟨rfl, rfl⟩

theorem augment_flip_rotate_90_ok_inv {resize : List Int → Nat → Nat → Band}
    {warp : Band × Band × Band → Nat → Nat → Band × Band × Band}
    {ip : List (Option Raster)} {lp : List (Option XElem)}
    {im : List (List Int)} {lb : List (Option (List Char))}
    (h : augment_flip_rotate_90 resize warp ip lp = Except.ok (im, lb)) :
    mapE (processImageRotate resize warp) ip = Except.ok im ∧
      mapE extract_classification lp = Except.ok lb := by
  unfold augment_flip_rotate_90 at h
  cases h1 : mapE (processImageRotate resize warp) ip with
  | error e => rw [h1] at h; cases h
  | ok images =>
    rw [h1] at h
    cases h2 : mapE extract_classification lp with
    | error e => rw [h2] at h; cases h
    | ok labels =>
      rw [h2] at h
      cases h
      exact ⟨rfl, rfl⟩

theorem combinedData_ok_inv {resize : List Int → Nat → Nat → Band}
    {warp : Band × Band × Band → Nat → Nat → Band × Band × Band}
    {ip : List (Option Raster)} {lp : List (Option XElem)}
    {ci : List (List Int)} {cl : List (Option (List Char))}
    (h : combinedData resize warp ip lp = Except.ok (ci, cl)) :
    ∃ i1 l1 i2 l2 i3 l3,
      preprocess_training_data resize ip lp = Except.ok (i1, l1) ∧
      augment_flip resize ip lp = Except.ok (i2, l2) ∧
      augment_flip_rotate_90 resize warp ip lp = Except.ok (i3, l3) ∧
      ci = i1 ++ i2 ++ i3 ∧ cl = l1 ++ l2 ++ l3 := by
  unfold combinedData at h
  cases h1 : preprocess_training_data resize ip lp with
  | error e => rw [h1] at h; cases h
  | ok p1 =>
    obtain ⟨i1, l1⟩ := p1
    rw [h1] at h
    cases h2 : augment_flip resize ip lp with
    | error e => rw [h2] at h; cases h
    | ok p2 =>
      obtain ⟨i2, l2⟩ := p2
      rw [h2] at h
      cases h3 : augment_flip_rotate_90 resize warp ip lp with
      | error e => rw [h3] at h; cases h
      | ok p3 =>
        obtain ⟨i3, l3⟩ := p3
        rw [h3] at h
        cases h
        exact ⟨i1, l1, i2, l2, i3, l3, rfl, rfl, rfl, rfl, rfl⟩

theorem RF.script_ok_inv {rip : List Raster} {lp : List (Option XElem)}
    {im : List (List Int)} {lb : List (Option (List Char))}
    (h : RF.script rip lp = Except.ok (im, lb)) :
    mapE RF.processImage rip = Except.ok im ∧
      ∃ ls, mapE RF.labelTexts lp = Except.ok ls ∧ lb = ls.flatten := by
  unfold RF.script at h
  cases h1 : mapE RF.processImage rip with
  | error e => rw [h1] at h; cases h
  | ok images =>
    rw [h1] at h
    cases h2 : mapE RF.labelTexts lp with
    | error e => rw [h2] at h; cases h
    | ok ls =>
      rw [h2] at h
      cases h
      exact ⟨rfl, ls, rfl, rfl⟩

theorem processImage_bands_err {resize : List Int → Nat → Nat → Band} {r : Raster}
    (h4 : r.bands.length < 4) :
    processImage resize (some r) = Except.error bandIndexMsg := by
  simp only [processImage, preprocess_image_err_of_bands h4]

theorem processImageFlip_err_of_bands {resize : List Int → Nat → Nat → Band} {r : Raster}
    (h4 : r.bands.length < 4) :
    processImageFlip resize (some r) = Except.error bandIndexMsg := by
  simp only [processImageFlip, preprocess_image_err_of_bands h4]

theorem processImageRotate_err_of_bands {resize : List Int → Nat → Nat → Band}
    {warp : Band × Band × Band → Nat → Nat → Band × Band × Band} {r : Raster}
    (h4 : r.bands.length < 4) :
    processImageRotate resize warp (some r) = Except.error bandIndexMsg := by
  simp only [processImageRotate, preprocess_image_err_of_bands h4]

theorem tinyRaster4_WF : tinyRaster4.WF := by
  unfold Raster.WF tinyRaster4
  decide

/-! The claims. -/

/-- C1 (amended): for every well-formed raster accepted by the pipeline,
the per-image bodies of `preprocess_training_data`, `augment_flip` and
`augment_flip_rotate_90` in 3_randomforest.py append a flattened vector of
length width times height times 3; the per-image loop of randomforest.py
always appends a vector of the fixed length 50 * 50 * 4 = 10000 of its
`datas` buffer, which equals the image's width times height times 4 exactly
when the raster is 50 by 50. -/
theorem C1_feature_vector_length (resize : List Int → Nat → Nat → Band)
    (warp : Band × Band × Band → Nat → Nat → Band × Band × Band)
    (hres : ResizeSpec resize) (hwarp : WarpSpec warp) (r : Raster) (hwf : r.WF) :
    (∀ v, processImage resize (some r) = Except.ok v →
      v.length = r.width * r.height * 3) ∧
    (∀ v, processImageFlip resize (some r) = Except.ok v →
      v.length = r.width * r.height * 3) ∧
    (∀ v, processImageRotate resize warp (some r) = Except.ok v →
      v.length = r.width * r.height * 3) ∧
    (∀ v, RF.processImage r = Except.ok v → v.length = 50 * 50 * 4) := by
  refine ⟨?_, ?_, ?_, fun v hv => RF.processImage_ok_length hwf hv⟩
  · intro v hv
    by_cases h4 : 4 ≤ r.bands.length
    · rw [processImage_eq_processBands resize r h4] at hv
      exact processBands_ok_length hres hv
    · rw [processImage_bands_err (by omega)] at hv
      cases hv
  · intro v hv
    by_cases h4 : 4 ≤ r.bands.length
    · rw [processImageFlip_eq_processBands resize r h4] at hv
      exact processBandsFlip_ok_length hres hv
    · rw [processImageFlip_err_of_bands (by omega)] at hv
      cases hv
  · intro v hv
    by_cases h4 : 4 ≤ r.bands.length
    · rw [processImageRotate_eq_processBands resize warp r h4] at hv
      exact processBandsRotate_ok_length hwarp hv
    · rw [processImageRotate_err_of_bands (by omega)] at hv
      cases hv

/-- Witness for C1 at concrete inputs: the 1 by 1 four-band raster is
processed by both pipelines; the 3_randomforest.py body yields a vector of
length 1 * 1 * 3 and the randomforest.py body one of length 10000. -/
theorem C1_feature_vector_length_witness :
    tinyRaster4.WF ∧
    (∃ v, processImage resizeFill (some tinyRaster4) = Except.ok v ∧
      v.length = tinyRaster4.width * tinyRaster4.height * 3) ∧
    (∃ v, RF.processImage tinyRaster4 = Except.ok v ∧ v.length = 50 * 50 * 4) := by
  have hthm := C1_feature_vector_length resizeFill warpFill resizeFill_spec warpFill_spec
    tinyRaster4 tinyRaster4_WF
  refine ⟨tinyRaster4_WF, ⟨_, rfl, hthm.1 _ rfl⟩, ?_⟩
  refine ⟨_, RF.processImage_single_pixel 1 1 1 2 3 4, ?_⟩
  exact hthm.2.2.2 _ (RF.processImage_single_pixel 1 1 1 2 3 4)

/-- C1 counterexample: the well-formed 1 by 1 four-band raster is processed
successfully by the randomforest.py loop, but the appended vector has
length 10000 and not width * height * 4 = 4, refuting the claim as
stated. -/
theorem C1_counterexample :
    ∃ v, RF.processImage tinyRaster4 = Except.ok v ∧ v.length = 10000 ∧
      tinyRaster4.width * tinyRaster4.height * 4 = 4 ∧ v.length ≠ 4 := by
  refine ⟨_, RF.processImage_single_pixel 1 1 1 2 3 4, ?_, rfl, ?_⟩
  · rw [flatten_replicate_length]
    norm_num
  · rw [flatten_replicate_length]
    norm_num

/-- C2 (amended): the per-image read step succeeds precisely on rasters
with at least four bands, returning the width, the height and bands 1-4;
on a three-band file `dataset.read(4)` raises IndexError in
`preprocess_image` and `GetRasterBand(4)` returns None in randomforest.py,
so the chained `ReadAsArray()` raises AttributeError. -/
theorem C2_band_reads (r : Raster) :
    (4 ≤ r.bands.length →
      preprocess_image (some r) =
        Except.ok (r.width, r.height, r.bands.getD 0 [], r.bands.getD 1 [],
          r.bands.getD 2 [], r.bands.getD 3 []) ∧
      (∀ k, 1 ≤ k → k ≤ 4 →
        RF.GetRasterBand r k = Except.ok (r.bands.getD (k - 1) []))) ∧
    (r.bands.length = 3 →
      preprocess_image (some r) = Except.error bandIndexMsg ∧
      RF.GetRasterBand r 4 = Except.error noneTypeMsg ∧
      RF.processImage r = Except.error noneTypeMsg) := by
  constructor
  · intro h4
    exact ⟨preprocess_image_ok_of_bands h4,
      fun k hk1 hk4 => RF.GetRasterBand_ok hk1 (by omega)⟩
  · intro h3
    exact ⟨preprocess_image_err_of_bands (by omega),
      RF.GetRasterBand_err (by omega), RF.processImage_err_of_bands (by omega)⟩

/-- Witness for C2 at a concrete four-band raster and a concrete three-band
raster. -/
theorem C2_band_reads_witness :
    preprocess_image (some tinyRaster4) =
      Except.ok (1, 1, [[1]], [[2]], [[3]], [[4]]) ∧
    RF.GetRasterBand tinyRaster4 4 = Except.ok [[4]] ∧
    preprocess_image (some threeBandRaster) = Except.error bandIndexMsg := by
  have h1 := (C2_band_reads tinyRaster4).1 (by decide)
  have h2 := (C2_band_reads threeBandRaster).2 rfl
  exact ⟨h1.1, h1.2 4 (by decide) (by decide), h2.1⟩

/-- C2 counterexample: a concrete three-band raster on which both
per-image read steps fail, refuting the claim that the read succeeds on a
three-band file. -/
theorem C2_counterexample :
    threeBandRaster.bands.length = 3 ∧
    preprocess_image (some threeBandRaster) = Except.error bandIndexMsg ∧
    RF.processImage threeBandRaster = Except.error noneTypeMsg :=
  ⟨rfl, rfl, rfl⟩

/-- C9 (amended): for a well-formed four-band raster, the raw band-to-buffer
assignments of `preprocess_training_data` succeed exactly when the raster
is square (the bands have shape (height, width) while the buffer is
allocated as (width, height)); the later reshape(50, 50, 3) of a feature
vector succeeds exactly when width * height = 2500; and the fixed
50 x 50 x 4 buffer of randomforest.py accepts exactly the rasters whose
height and width are each 1 (numpy broadcasting) or 50, so any raster with
both dimensions at least 2 must be exactly 50 by 50. -/
theorem C9_square_precondition (resize : List Int → Nat → Nat → Band)
    (hres : ResizeSpec resize) (r : Raster) (hwf : r.WF) (h4 : 4 ≤ r.bands.length) :
    ((∃ v, processImage resize (some r) = Except.ok v) ↔ r.width = r.height) ∧
    (∀ v, processImage resize (some r) = Except.ok v →
      ((∃ u, reshape_50_50_3 v = Except.ok u) ↔ r.width * r.height = 2500)) ∧
    ((∃ v, RF.processImage r = Except.ok v) ↔
      ((r.height = 1 ∨ r.height = 50) ∧ (r.width = 1 ∨ r.width = 50))) := by
  refine ⟨processImage_square_iff hres hwf h4, ?_, ?_⟩
  · intro v hv
    have hlen : v.length = r.width * r.height * 3 := by
      rw [processImage_eq_processBands resize r h4] at hv
      exact processBands_ok_length hres hv
    unfold reshape_50_50_3
    by_cases hc : v.length = 50 * 50 * 3
    · rw [if_pos hc]
      have hx : r.width * r.height * 3 = 2500 * 3 := by
        rw [← hlen, hc]
      have hwh : r.width * r.height = 2500 :=
        Nat.eq_of_mul_eq_mul_right (by norm_num) hx
      exact ⟨fun _ => hwh, fun _ => ⟨v, rfl⟩⟩
    · rw [if_neg hc]
      constructor
      · rintro ⟨u, hu⟩
        cases hu
      · intro hwh
        exfalso
        apply hc
        rw [hlen, hwh]
  · rw [RF.processImage_ok_iff hwf]
    constructor
    · rintro ⟨_, h⟩
      exact h
    · intro h
      exact ⟨h4, h⟩

/-- Witness for C9: the square 1 by 1 four-band raster satisfies both
success characterizations. -/
theorem C9_square_precondition_witness :
    ((∃ v, processImage resizeFill (some tinyRaster4) = Except.ok v) ↔
      tinyRaster4.width = tinyRaster4.height) ∧
    ((∃ v, RF.processImage tinyRaster4 = Except.ok v) ↔
      ((tinyRaster4.height = 1 ∨ tinyRaster4.height = 50) ∧
        (tinyRaster4.width = 1 ∨ tinyRaster4.width = 50))) := by
  have h := C9_square_precondition resizeFill resizeFill_spec tinyRaster4
    tinyRaster4_WF (by decide)
  exact ⟨h.1, h.2.2⟩

/-- C9 counterexample: the well-formed non-square 50-wide, 1-high four-band
raster is processed successfully by the randomforest.py loop (its single
row of width 50 broadcasts into the 50 x 50 buffer), refuting that
processing succeeds only for square rasters and that a non-square raster
makes the assignment raise. -/
theorem C9_counterexample :
    wideRaster.width ≠ wideRaster.height ∧ wideRaster.WF ∧
    (∃ v, RF.processImage wideRaster = Except.ok v) :=
  ⟨by decide, wideRaster_WF, ⟨_, RF.processImage_wide⟩⟩

theorem getD_mem_u {α : Type} {l : List α} {i : Nat} (hi : i < l.length) (d : α) :
    l.getD i d ∈ l := by
  rw [List.getD_eq_getElem?_getD, List.getElem?_eq_getElem hi]
  exact List.getElem_mem hi

/-- C3 (amended): whenever the data-loading functions of 3_randomforest.py
return, the images list and the labels list have the lengths of their input
path lists (hence equal lengths for equal-length inputs) and the i-th label
is the classification extracted from the i-th annotation file; the
top-level loops of randomforest.py satisfy the same property provided every
annotation file contains exactly one name element, since every name element
of every file appends one label to the shared list. -/
theorem C3_index_alignment (resize : List Int → Nat → Nat → Band)
    (warp : Band × Band × Band → Nat → Nat → Band × Band × Band)
    (ip : List (Option Raster)) (lp : List (Option XElem))
    (hlen : ip.length = lp.length) :
    (∀ im lb, preprocess_training_data resize ip lp = Except.ok (im, lb) →
      im.length = lb.length ∧
      ∀ i, i < lp.length →
        extract_classification (lp.getD i none) = Except.ok (lb.getD i none)) ∧
    (∀ im lb, augment_flip resize ip lp = Except.ok (im, lb) →
      im.length = lb.length ∧
      ∀ i, i < lp.length →
        extract_classification (lp.getD i none) = Except.ok (lb.getD i none)) ∧
    (∀ im lb, augment_flip_rotate_90 resize warp ip lp = Except.ok (im, lb) →
      im.length = lb.length ∧
      ∀ i, i < lp.length →
        extract_classification (lp.getD i none) = Except.ok (lb.getD i none)) ∧
    (∀ rip : List Raster, rip.length = lp.length →
      (∀ d ∈ lp, ∃ root, d = some root ∧ (iterName root).length = 1) →
      ∀ im lb, RF.script rip lp = Except.ok (im, lb) →
        im.length = lb.length ∧
        ∀ i, i < lp.length →
          extract_classification (lp.getD i none) = Except.ok (lb.getD i none)) := by
  have key : ∀ (im : List (List Int)) (lb : List (Option (List Char))),
      (∃ f : Option Raster → Except String (List Int), mapE f ip = Except.ok im) →
      mapE extract_classification lp = Except.ok lb →
      im.length = lb.length ∧ ∀ i, i < lp.length →
        extract_classification (lp.getD i none) = Except.ok (lb.getD i none) := by
    rintro im lb ⟨f, h1⟩ h2
    refine ⟨?_, fun i hi => mapE_ok_getD none none h2 i hi⟩
    rw [mapE_ok_length h1, mapE_ok_length h2, hlen]
  refine ⟨?_, ?_, ?_, ?_⟩
  · intro im lb h
    obtain ⟨h1, h2⟩ := preprocess_training_data_ok_inv h
    exact key im lb ⟨_, h1⟩ h2
  · intro im lb h
    obtain ⟨h1, h2⟩ := augment_flip_ok_inv h
    exact key im lb ⟨_, h1⟩ h2
  · intro im lb h
    obtain ⟨h1, h2⟩ := augment_flip_rotate_90_ok_inv h
    exact key im lb ⟨_, h1⟩ h2
  · intro rip hriplen hsingle im lb h
    obtain ⟨h1, ls, h2, hflat⟩ := RF.script_ok_inv h
    have hlslen : ls.length = lp.length := mapE_ok_length h2
    have hsingD : ∀ i, i < lp.length → ∃ root e, lp.getD i none = some root ∧
        iterName root = [e] ∧ ls.getD i [] = [e.text] := by
      intro i hi
      obtain ⟨root, hroot, hone⟩ := hsingle (lp.getD i none) (getD_mem_u hi none)
      obtain ⟨e, he⟩ := List.length_eq_one.1 hone
      refine ⟨root, e, hroot, he, ?_⟩
      have hval := mapE_ok_getD none [] h2 i hi
      rw [hroot] at hval
      simp only [RF.labelTexts, he] at hval
      simpa using hval.symm
    have hsing2 : ∀ x ∈ ls, ∃ a, x = [a] := by
      intro x hx
      obtain ⟨i, hi, hix⟩ := List.mem_iff_getElem.1 hx
      obtain ⟨root, e, _, _, hls⟩ := hsingD i (by rw [← hlslen]; exact hi)
      refine ⟨e.text, ?_⟩
      have hgi : ls[i] = ls.getD i [] := by
        rw [List.getD_eq_getElem?_getD, List.getElem?_eq_getElem hi]
        rfl
      rw [← hix, hgi, hls]
    have hflatmap : lb = ls.map (fun x => x.headD none) := by
      rw [hflat]
      exact flatten_of_singletons none hsing2
    constructor
    · rw [mapE_ok_length h1, hflatmap, List.length_map, hlslen, hriplen]
    · intro i hi
      obtain ⟨root, e, hroot, hone, hls⟩ := hsingD i hi
      rw [hroot]
      rw [extract_classification_of_names (show (iterName root).getLast? = some e by
        rw [hone]; rfl)]
      have hval : lb.getD i none = e.text := by
        rw [hflatmap]
        have hg : (ls.map (fun x : List (Option (List Char)) => x.headD none)).getD i none
            = (ls.getD i []).headD none :=
          getD_map_u (fun x : List (Option (List Char)) => x.headD none) ls i []
        rw [hg, hls]
        rfl
      rw [hval]

/-- Witness for C3 at concrete inputs: one 1 by 1 four-band raster and one
single-name annotation file, through both pipelines. -/
theorem C3_index_alignment_witness :
    (∃ im lb, preprocess_training_data resizeFill [some tinyRaster4] [some oneNameDoc] =
      Except.ok (im, lb) ∧ im.length = lb.length) ∧
    (∃ im lb, RF.script [tinyRaster4] [some oneNameDoc] = Except.ok (im, lb) ∧
      im.length = lb.length) := by
  have h := C3_index_alignment resizeFill warpFill [some tinyRaster4] [some oneNameDoc] rfl
  have hsp : RF.processImage tinyRaster4 =
      Except.ok ((List.replicate 2500 [(1 : Int), 2, 3, 4]).flatten) :=
    RF.processImage_single_pixel 1 1 1 2 3 4
  have hmap : mapE RF.processImage [tinyRaster4] =
      Except.ok [(List.replicate 2500 [(1 : Int), 2, 3, 4]).flatten] := by
    simp only [mapE, hsp]
  have hsingle : ∀ d ∈ [(some oneNameDoc : Option XElem)],
      ∃ root, d = some root ∧ (iterName root).length = 1 := by
    intro d hd
    rw [List.mem_singleton.1 hd]
    exact ⟨oneNameDoc, rfl, rfl⟩
  have hscript : RF.script [tinyRaster4] [some oneNameDoc] =
      Except.ok ([(List.replicate 2500 [(1 : Int), 2, 3, 4]).flatten], [some catTxt]) := by
    unfold RF.script
    rw [hmap]
    rfl
  constructor
  · exact ⟨_, _, rfl, ((h.1) _ _ rfl).1⟩
  · exact ⟨_, _, hscript, (h.2.2.2 [tinyRaster4] rfl hsingle _ _ hscript).1⟩

/-- C3 counterexample: with the equal-length input lists consisting of one
1 by 1 four-band raster and one annotation file holding two name elements,
the randomforest.py loops return an images list of length 1 but a labels
list of length 2, refuting the claimed index alignment. -/
theorem C3_counterexample :
    [tinyRaster4].length = [(some twoNameDoc : Option XElem)].length ∧
    ∃ im lb, RF.script [tinyRaster4] [some twoNameDoc] = Except.ok (im, lb) ∧
      im.length = 1 ∧ lb.length = 2 := by
  refine ⟨rfl, [(List.replicate 2500 [(1 : Int), 2, 3, 4]).flatten],
    [some catTxt, some dogTxt], ?_, rfl, rfl⟩
  have hsp : RF.processImage tinyRaster4 =
      Except.ok ((List.replicate 2500 [(1 : Int), 2, 3, 4]).flatten) :=
    RF.processImage_single_pixel 1 1 1 2 3 4
  have hmap : mapE RF.processImage [tinyRaster4] =
      Except.ok [(List.replicate 2500 [(1 : Int), 2, 3, 4]).flatten] := by
    simp only [mapE, hsp]
  unfold RF.script
  rw [hmap]
  rfl

/-- C4: for every map file whose every line carries at least two
whitespace-separated tokens, `get_training_data` returns two lists of
length the number of lines, the i-th image path being path_to_data + slash
+ the first token of line i and the i-th label path being path_to_data +
slash + the second token, tokens taken after stripping the trailing
newline and replacing every backslash with a forward slash. -/
theorem C4_map_file (path : List Char) (file_lines : List (List Char))
    (htok : ∀ l ∈ file_lines, 2 ≤ (lineTokens l).length) :
    get_training_data path (some file_lines) =
      Except.ok (file_lines.map (fun l => path ++ '/' :: (lineTokens l).getD 0 []),
        file_lines.map (fun l => path ++ '/' :: (lineTokens l).getD 1 [])) ∧
    (file_lines.map (fun l => path ++ '/' :: (lineTokens l).getD 0 [])).length =
      file_lines.length ∧
    (file_lines.map (fun l => path ++ '/' :: (lineTokens l).getD 1 [])).length =
      file_lines.length := by
  have hmap : mapE (mapLine path) file_lines =
      Except.ok (file_lines.map (fun l =>
        (path ++ '/' :: (lineTokens l).getD 0 [],
         path ++ '/' :: (lineTokens l).getD 1 []))) :=
    mapE_eq_map (fun l hl => mapLine_ok_of_tokens (htok l hl))
  refine ⟨?_, List.length_map _ _, List.length_map _ _⟩
  simp only [get_training_data, hmap, List.map_map]
  rfl

/-- Witness for C4 on a concrete two-line map file with a backslash path
and trailing newlines. -/
theorem C4_map_file_witness :
    get_training_data ['d'] (some [['a', ' ', 'b', '\n'], ['x', '\\', 'y', ' ', 'z']]) =
      Except.ok ([['d', '/', 'a'], ['d', '/', 'x', '/', 'y']],
        [['d', '/', 'b'], ['d', '/', 'z']]) := by
  have h := (C4_map_file ['d'] [['a', ' ', 'b', '\n'], ['x', '\\', 'y', ' ', 'z']]
    (by decide)).1
  rw [h]
  rfl

/-- C5: for every well-formed raster, the per-image bodies of
`preprocess_training_data`, `augment_flip` (on the vertically flipped
bands, masked by the flipped alpha) and `augment_flip_rotate_90` compute
masked band arrays that contain exactly the red, green and blue values at
the positions where the alpha band is nonzero, in row-major order
(equality with the `maskedRowMajor` twins), and hand each masked array to
a resize call with target shape `(nX, nY)`. -/
theorem C5_alpha_masking (resize : List Int → Nat → Nat → Band)
    (warp : Band × Band × Band → Nat → Nat → Band × Band × Band)
    (hres : ResizeSpec resize) (r : Raster) (hwf : r.WF) (h4 : 4 ≤ r.bands.length) :
    (processImage resize (some r) =
      processBandsMaskSpec resize r.width r.height (r.bands.getD 0 [])
        (r.bands.getD 1 []) (r.bands.getD 2 []) (r.bands.getD 3 [])) ∧
    (processImageFlip resize (some r) =
      processBandsFlipMaskSpec resize r.width r.height (r.bands.getD 0 [])
        (r.bands.getD 1 []) (r.bands.getD 2 []) (r.bands.getD 3 [])) ∧
    (processImageRotate resize warp (some r) =
      processBandsRotateMaskSpec resize warp r.width r.height (r.bands.getD 0 [])
        (r.bands.getD 1 []) (r.bands.getD 2 []) (r.bands.getD 3 [])) ∧
    (∀ vals, BandShape (resize vals r.width r.height) r.width r.height) := by
  have s0 := WF_band_shape hwf (show 0 < r.bands.length by omega)
  have s1 := WF_band_shape hwf (show 1 < r.bands.length by omega)
  have s2 := WF_band_shape hwf (show 2 < r.bands.length by omega)
  have s3 := WF_band_shape hwf (show 3 < r.bands.length by omega)
  have m0 := maskSelect_eq_of_shapes s0 s3
  have m1 := maskSelect_eq_of_shapes s1 s3
  have m2 := maskSelect_eq_of_shapes s2 s3
  have m0r := maskSelect_eq_of_shapes (BandShape_reverse s0) (BandShape_reverse s3)
  have m1r := maskSelect_eq_of_shapes (BandShape_reverse s1) (BandShape_reverse s3)
  have m2r := maskSelect_eq_of_shapes (BandShape_reverse s2) (BandShape_reverse s3)
  refine ⟨?_, ?_, ?_, fun vals => hres vals r.width r.height⟩
  · rw [processImage_eq_processBands resize r h4]
    unfold processBands processBandsMaskSpec
    rw [m0, m1, m2]
  · rw [processImageFlip_eq_processBands resize r h4]
    unfold processBandsFlip processBandsFlipMaskSpec
    rw [m0r, m1r, m2r]
  · rw [processImageRotate_eq_processBands resize warp r h4]
    unfold processBandsRotate processBandsRotateMaskSpec
    rw [m0, m1, m2]

/-- Witness for C5 at the concrete 1 by 1 four-band raster with the
concrete resize and warp instances. -/
theorem C5_alpha_masking_witness :
    processImage resizeFill (some tinyRaster4) =
      processBandsMaskSpec resizeFill tinyRaster4.width tinyRaster4.height
        (tinyRaster4.bands.getD 0 []) (tinyRaster4.bands.getD 1 [])
        (tinyRaster4.bands.getD 2 []) (tinyRaster4.bands.getD 3 []) ∧
    processImageRotate resizeFill warpFill (some tinyRaster4) =
      processBandsRotateMaskSpec resizeFill warpFill tinyRaster4.width tinyRaster4.height
        (tinyRaster4.bands.getD 0 []) (tinyRaster4.bands.getD 1 [])
        (tinyRaster4.bands.getD 2 []) (tinyRaster4.bands.getD 3 []) := by
  have h := C5_alpha_masking resizeFill warpFill resizeFill_spec tinyRaster4
    tinyRaster4_WF (by decide)
  exact ⟨h.1, h.2.2.1⟩

/-- C6: no operation catches or translates errors: a missing map file, a
line with too few tokens, a missing raster file, a missing band, a
malformed annotation file and an annotation without a name element each
surface as the underlying library exception, unchanged, and the enclosing
loops of preprocess_training_data forward the first such error as their
own result, producing no partial output. -/
theorem C6_error_propagation :
    (∀ p, get_training_data p none = Except.error mapFileNotFound) ∧
    (∀ p (pre : List (List Char)) bad rest, (∀ l ∈ pre, 2 ≤ (lineTokens l).length) →
      (lineTokens bad).length < 2 →
      get_training_data p (some (pre ++ bad :: rest)) = Except.error tokenIndexMsg) ∧
    (preprocess_image none = Except.error rasterFileNotFound) ∧
    (∀ r : Raster, r.bands.length < 4 →
      preprocess_image (some r) = Except.error bandIndexMsg) ∧
    (extract_classification none = Except.error parseErrorMsg) ∧
    (∀ root : XElem, iterName root = [] →
      extract_classification (some root) = Except.error unboundLocalMsg) ∧
    (∀ (resize : List Int → Nat → Nat → Band) (pre : List (Option Raster)) bad rest lp e,
      (∀ i ∈ pre, ∃ v, processImage resize i = Except.ok v) →
      processImage resize bad = Except.error e →
      preprocess_training_data resize (pre ++ bad :: rest) lp = Except.error e) ∧
    (∀ (resize : List Int → Nat → Nat → Band) ip (pre : List (Option XElem)) bad rest e,
      (∃ imgs, mapE (processImage resize) ip = Except.ok imgs) →
      (∀ d ∈ pre, ∃ v, extract_classification d = Except.ok v) →
      extract_classification bad = Except.error e →
      preprocess_training_data resize ip (pre ++ bad :: rest) = Except.error e) := by
  refine ⟨fun p => rfl, ?_, rfl, fun r h4 => preprocess_image_err_of_bands h4, rfl,
    fun root h => extract_classification_no_name h, ?_, ?_⟩
  · intro p pre bad rest hpre hbad
    have herr := mapE_error_append (@mapLine_err_of_tokens p bad hbad) rest
      (fun l hl => ⟨_, @mapLine_ok_of_tokens p l (hpre l hl)⟩)
    simp only [get_training_data, herr]
  · intro resize pre bad rest lp e hpre hbad
    have herr := mapE_error_append hbad rest hpre
    simp only [preprocess_training_data, herr]
  · intro resize ip pre bad rest e himgs hpre hbad
    obtain ⟨imgs, himgs⟩ := himgs
    have herr := mapE_error_append hbad rest hpre
    simp only [preprocess_training_data, himgs, herr]

/-- Witness for C6 on concrete failing inputs: missing map file, a
one-token line, a three-band raster, a missing annotation name, a missing
raster file inside the image loop and a malformed annotation inside the
label loop. -/
theorem C6_error_propagation_witness :
    get_training_data ['d'] none = Except.error mapFileNotFound ∧
    get_training_data ['d'] (some [['x']]) = Except.error tokenIndexMsg ∧
    preprocess_image (some threeBandRaster) = Except.error bandIndexMsg ∧
    extract_classification (some noNameDoc) = Except.error unboundLocalMsg ∧
    preprocess_training_data resizeFill [none] [] = Except.error rasterFileNotFound ∧
    preprocess_training_data resizeFill [] [none] = Except.error parseErrorMsg := by
  have h := C6_error_propagation
  refine ⟨h.1 ['d'], ?_, h.2.2.2.1 threeBandRaster (by decide),
    h.2.2.2.2.2.1 noNameDoc rfl, ?_, ?_⟩
  · exact h.2.1 ['d'] [] ['x'] [] (fun l hl => absurd hl (by simp)) (by decide)
  · exact h.2.2.2.2.2.2.1 resizeFill [] none [] []
      rasterFileNotFound (fun i hi => absurd hi (by simp)) rfl
  · exact h.2.2.2.2.2.2.2 resizeFill [] [] none [] parseErrorMsg ⟨[], rfl⟩
      (fun d hd => absurd hd (by simp)) rfl

/-- C7: the label loops of the three preprocessing functions are identical,
so on the same label_path list they return the same labels whenever they
return, and the combined label array built by the top level is the original
label sequence repeated three times in order. -/
theorem C7_labels_preserved (resize : List Int → Nat → Nat → Band)
    (warp : Band × Band × Band → Nat → Nat → Band × Band × Band)
    (ip : List (Option Raster)) (lp : List (Option XElem)) :
    (∀ im1 lb1 im2 lb2 im3 lb3,
      preprocess_training_data resize ip lp = Except.ok (im1, lb1) →
      augment_flip resize ip lp = Except.ok (im2, lb2) →
      augment_flip_rotate_90 resize warp ip lp = Except.ok (im3, lb3) →
      lb1 = lb2 ∧ lb1 = lb3) ∧
    (∀ ci cl im1 lb1,
      preprocess_training_data resize ip lp = Except.ok (im1, lb1) →
      combinedData resize warp ip lp = Except.ok (ci, cl) →
      cl = lb1 ++ lb1 ++ lb1) := by
  constructor
  · intro im1 lb1 im2 lb2 im3 lb3 h1 h2 h3
    have e1 := (preprocess_training_data_ok_inv h1).2
    have e2 := (augment_flip_ok_inv h2).2
    have e3 := (augment_flip_rotate_90_ok_inv h3).2
    exact ⟨except_ok_unique e1 e2, except_ok_unique e1 e3⟩
  · intro ci cl im1 lb1 h1 hc
    obtain ⟨i1, l1, i2, l2, i3, l3, hp, hf, hr, _, hcl⟩ := combinedData_ok_inv hc
    have e1 := (preprocess_training_data_ok_inv h1).2
    have f1 := (preprocess_training_data_ok_inv hp).2
    have f2 := (augment_flip_ok_inv hf).2
    have f3 := (augment_flip_rotate_90_ok_inv hr).2
    rw [hcl, except_ok_unique f1 e1, except_ok_unique f2 e1, except_ok_unique f3 e1]

/-- Witness for C7: the combined data on one concrete raster and one
concrete annotation carries the label sequence three times. -/
theorem C7_labels_preserved_witness :
    ∃ ci cl, combinedData resizeFill warpFill [some tinyRaster4] [some oneNameDoc] =
      Except.ok (ci, cl) ∧
      cl = [some catTxt] ++ [some catTxt] ++ [some catTxt] := by
  refine ⟨_, _, rfl, ?_⟩
  exact (C7_labels_preserved resizeFill warpFill [some tinyRaster4]
    [some oneNameDoc]).2 _ _ _ _ rfl rfl

/-- C8: for every annotation document containing a name element,
`extract_classification` returns the text of a name element of that
document (an element of `root.iter(name)`). -/
theorem C8_extract_name (root : XElem) (h : iterName root ≠ []) :
    ∃ e ∈ iterName root, e.tag = nameTag ∧
      extract_classification (some root) = Except.ok e.text :=
  ⟨(iterName root).getLast h, List.getLast_mem h,
    iterName_tag root _ (List.getLast_mem h),
    extract_classification_of_names (List.getLast?_eq_getLast _ h)⟩

/-- Witness for C8 at a concrete single-name annotation document. -/
theorem C8_extract_name_witness :
    ∃ e ∈ iterName oneNameDoc, e.tag = nameTag ∧
      extract_classification (some oneNameDoc) = Except.ok e.text := by
  apply C8_extract_name oneNameDoc
  rw [show iterName oneNameDoc = [XElem.node nameTag (some catTxt) []] from rfl]
  intro hc
  cases hc

/-- C10: an annotation document without a name element makes
`extract_classification` raise (the classification variable is never
bound), and a document with two or more name elements yields the text of
the last one in document order. -/
theorem C10_extract_edge_cases (root : XElem) :
    (iterName root = [] →
      extract_classification (some root) = Except.error unboundLocalMsg) ∧
    (2 ≤ (iterName root).length →
      ∃ e, (iterName root).getLast? = some e ∧
        extract_classification (some root) = Except.ok e.text) := by
  refine ⟨extract_classification_no_name, ?_⟩
  intro h2
  have hne : iterName root ≠ [] := by
    intro hc
    rw [hc] at h2
    simp at h2
  exact ⟨_, List.getLast?_eq_getLast _ hne,
    extract_classification_of_names (List.getLast?_eq_getLast _ hne)⟩

/-- Witness for C10 at a concrete no-name document and a concrete two-name
document (cat then dog in document order; dog is returned). -/
theorem C10_extract_edge_cases_witness :
    extract_classification (some noNameDoc) = Except.error unboundLocalMsg ∧
    extract_classification (some twoNameDoc) = Except.ok (some dogTxt) := by
  refine ⟨(C10_extract_edge_cases noNameDoc).1 rfl, ?_⟩
  obtain ⟨e, hgl, hex⟩ := (C10_extract_edge_cases twoNameDoc).2 (by
    rw [show iterName twoNameDoc = [XElem.node nameTag (some catTxt) [],
      XElem.node nameTag (some dogTxt) []] from rfl]
    simp)
  have he : e = XElem.node nameTag (some dogTxt) [] := by
    rw [show (iterName twoNameDoc).getLast? =
      some (XElem.node nameTag (some dogTxt) []) from rfl] at hgl
    exact (Option.some.inj hgl).symm
  rw [hex, he]
  rfl
